import Mathlib

/-!
Verification of the interview-pipeline core of the genial-ai healthcare
assistant backend, shallowly embedded from
`backend/app/services/agent/{graph.py, models.py, session_manager.py}`.

Provider (LLM) calls are modelled by oracle arguments: `none` stands for a
raised exception caught by the surrounding `try`/`except`, `some r` for a
successfully parsed structured response `r`.  Python `dict`s (which preserve
insertion order) are modelled as association lists with in-place overwrite,
and Python's stable `sorted(key=..., reverse=True)` as `List.insertionSort`
with the corresponding total preorder.
-/

namespace Genial

/-- Python dict of `str -> str`, ordered by insertion, as in the report maps. -/
abbrev Dict := List (String × String)

/-- Membership test for a key, `k in d`. -/
def dictHas (d : Dict) (k : String) : Bool :=
  d.any (fun p => p.1 == k)

/-- Lookup, `d[k]` (as an `Option` since Python raises on a missing key). -/
def dictGet (d : Dict) (k : String) : Option String :=
  (d.find? (fun p => p.1 == k)).map Prod.snd

/-- Assignment `d[k] = v`: overwrite in place if present, else append. -/
def dictSet (d : Dict) (k v : String) : Dict :=
  if dictHas d k then d.map (fun p => if p.1 == k then (k, v) else p)
  else d ++ [(k, v)]

/-- Deletion `del d[k]`. -/
def dictDel (d : Dict) (k : String) : Dict :=
  d.filter (fun p => p.1 != k)

/-- Disease (models.py): a named condition with reasoning and an integer
probability in 0..100. -/
structure Disease where
  disease_name : String
  match_reason : String
  match_probability : Nat
deriving DecidableEq, Repr

/-- Structured response of the disease-suggestion provider call
(models.py `DiseaseSuggestionLLMResponse`): an index and an optional disease. -/
structure DiseaseSuggestionLLMResponse where
  index : Int
  disease : Option Disease
deriving DecidableEq, Repr

/-- Content of a conversation message.  Python stores plain strings; the
scratch-buffer AI messages hold `model_dump_json` of a suggestion response,
which `loop_disease_suggestion` parses back with `model_validate_json`.  We
model string contents as an inductive so that the JSON payload is recoverable:
`suggJson r` is the dump of `r` and every other reachable content is plain
text (on which `model_validate_json` raises, modelled as parse failure). -/
inductive MsgContent where
  | text (s : String)
  | suggJson (r : DiseaseSuggestionLLMResponse)
deriving DecidableEq, Repr

/-- Kind tag of a LangChain message (human / ai / system). -/
inductive MsgType where
  | human
  | ai
  | system
deriving DecidableEq, Repr

/-- A LangChain message: kind, content and `additional_kwargs` (string keys
mapping to lists of strings, as used for `suggested_actions`). -/
structure Msg where
  type : MsgType
  content : MsgContent
  kwargs : List (String × List String)
deriving DecidableEq, Repr

/-- Result of `model_validate_json` on a message content: succeeds exactly on
a dumped suggestion payload, raises (= `none`) on plain text. -/
def parseSuggestion : MsgContent → Option DiseaseSuggestionLLMResponse
  | .suggJson r => some r
  | .text _ => none

/-- MedicalReport (models.py): the accumulating clinical record. -/
structure MedicalReport where
  evidences : Dict
  images : Dict
  images_analyses : Dict
  medai_raw : Dict
  summary : String
  most_likely_disease : List Disease
deriving DecidableEq, Repr

/-- MedicalReport.add_new_image (models.py): registers an image under a title
together with an empty analysis entry. -/
def MedicalReport.add_new_image (r : MedicalReport) (image_name image_path : String) :
    MedicalReport :=
  { r with images := dictSet r.images image_name image_path,
           images_analyses := dictSet r.images_analyses image_name "" }

/-- GraphState (models.py): the shared mutable state of one session. The
`information_seek` field holds the question list of an `InformationSeek`
object, or `none` when the Python field is `None`. -/
structure GraphState where
  messages : List Msg
  new_user_message : Option Msg
  information_seek : Option (List String)
  medical_report : MedicalReport
  disease_buffer : List Msg
  report_updated : Bool
  question_count : Nat
deriving DecidableEq, Repr

/-- Fresh empty state, as constructed by `SessionManager.get_session` for an
unknown session id. -/
def emptyState : GraphState where
  messages := []
  new_user_message := none
  information_seek := none
  medical_report :=
    { evidences := [], images := [], images_analyses := [], medai_raw := [],
      summary := "", most_likely_disease := [] }
  disease_buffer := []
  report_updated := false
  question_count := 0

/-- One evidence item of the extraction response (models.py
`EvidenceUpdateLLMResponse`). -/
structure EvidenceUpdateLLMResponse where
  evidence_title : String
  evidence_value : String
deriving DecidableEq, Repr

/-- One image item of the extraction response (models.py
`ImageUpdateLLMResponse`). -/
structure ImageUpdateLLMResponse where
  image_title : String
  image_path : String
deriving DecidableEq, Repr

/-- Structured response of the evidence-extraction provider call (models.py
`PreReportUpdateLLMResponse`). -/
structure PreReportUpdateLLMResponse where
  evidence_list : Option (List EvidenceUpdateLLMResponse)
  image_list : Option (List ImageUpdateLLMResponse)
deriving DecidableEq, Repr

/-- Body of the `for evidence in response.evidence_list` loop of
`pre_report_update_node` (graph.py:114-117). -/
def applyEvidence (s : GraphState) (ev : EvidenceUpdateLLMResponse) : GraphState :=
  { s with
    medical_report := { s.medical_report with
      evidences := dictSet s.medical_report.evidences ev.evidence_title ev.evidence_value },
    report_updated := true }

/-- Body of the `for image in response.image_list` loop of
`pre_report_update_node` (graph.py:119-124); `pathExists` models
`os.path.exists`, and the Python truthiness test on the path string is
non-emptiness. -/
def applyImage (pathExists : String → Bool) (s : GraphState) (im : ImageUpdateLLMResponse) :
    GraphState :=
  if im.image_path != "" && pathExists im.image_path then
    { s with
      medical_report := { s.medical_report with
        images := dictSet s.medical_report.images im.image_title im.image_path,
        images_analyses := dictSet s.medical_report.images_analyses im.image_title "" },
      report_updated := true }
  else s

/-- pre_report_update_node (graph.py:42-132).  `resp = none` models the
provider call raising: the `except` branch returns the state as mutated so
far (only `report_updated := false`), in particular *without* consuming
`new_user_message`.  On success the consumed user turn is appended to the
turn list (in real runs `new_user_message` is always a `HumanMessage` at
entry, so `Option.toList` appends exactly that message). -/
def pre_report_update_node (resp : Option PreReportUpdateLLMResponse)
    (pathExists : String → Bool) (s : GraphState) : GraphState :=
  let s := { s with report_updated := false }
  match resp with
  | none => s
  | some r =>
    let s1 := match r.evidence_list with
      | none => s
      | some evs => evs.foldl applyEvidence s
    let s2 := match r.image_list with
      | none => s1
      | some ims => ims.foldl (applyImage pathExists) s1
    { s2 with messages := s2.messages ++ s2.new_user_message.toList,
              new_user_message := none }

/-- Structured response of the per-image description call (models.py
`ImageDescriptionLLMResponse`). -/
structure ImageDescriptionLLMResponse where
  image_description : String
  image_title : String
  diseases : String
  has_skin : Bool
deriving DecidableEq, Repr

/-- Oracles for the three provider calls made per image by
`image_analysis_node`: the MedGemma description call, the external skin
classifier (`some s` = a non-`None` result already wrapped by `json.dumps`,
`none` = failure or `None` result, both of which leave `medai_raw`
unchanged), and the Gemini narrative rewrite. -/
structure ImageOracle where
  imgDesc : String → Option ImageDescriptionLLMResponse
  skinAI : String → Option String
  rewriteRaw : String → Option String
deriving Inhabited

/-- The trailing rewrite step of the per-image loop (graph.py:240-264):
if raw classifier data exists and is non-empty, rewrite it with Gemini and
append to the analysis; a rewrite failure is caught and changes nothing. -/
def rewriteStep (o : ImageOracle) (report : MedicalReport) (updated : Bool)
    (image_name : String) : MedicalReport × Bool :=
  if dictHas report.medai_raw image_name &&
      (dictGet report.medai_raw image_name != some "") then
    match o.rewriteRaw ((dictGet report.medai_raw image_name).getD "") with
    | some txt =>
      let newAnalysis := ((dictGet report.images_analyses image_name).getD "") ++
        "\n\nAI Disease Prediction (first look):\n\n" ++ txt
      ({ report with
         images_analyses := dictSet report.images_analyses image_name newAnalysis }, true)
    | none => (report, updated)
  else (report, updated)

/-- Body of the `for image_name in all_image_names` loop of
`image_analysis_node` (graph.py:157-264), threading the report and the
`report_updated` accumulator.  Lookups of keys known to be present are
modelled with `Option.getD ""`. -/
def analyzeOneImage (o : ImageOracle) (acc : MedicalReport × Bool)
    (image_name : String) : MedicalReport × Bool :=
  let report := acc.1
  if !dictHas report.images_analyses image_name ||
      (dictGet report.images_analyses image_name == some "") then
    let report := { report with
      images_analyses := dictSet report.images_analyses image_name "" }
    match o.imgDesc image_name with
    | none =>
      -- MedGemma call failed: caught and logged, fall through to the rewrite step
      rewriteStep o report acc.2 image_name
    | some resp =>
      let retitle := resp.image_title != "" && resp.image_title != image_name
      let report :=
        if retitle then
          { report with
            images := dictDel (dictSet report.images resp.image_title
              ((dictGet report.images image_name).getD "")) image_name,
            images_analyses := dictDel (dictSet report.images_analyses resp.image_title "")
              image_name }
        else report
      let image_name := if retitle then resp.image_title else image_name
      let report := { report with
        images_analyses := dictSet report.images_analyses image_name resp.image_description }
      let report :=
        if resp.diseases != "" then
          { report with medai_raw := dictSet report.medai_raw image_name resp.diseases }
        else report
      let report :=
        if resp.has_skin then
          match o.skinAI image_name with
          | some out => { report with medai_raw := dictSet report.medai_raw image_name out }
          | none => report
        else report
      rewriteStep o report true image_name
  else acc

/-- image_analysis_node (graph.py:134-267): iterates over a snapshot of the
image titles, analyzing each image without an analysis yet; ORs the incoming
dirty flag back in at the end. -/
def image_analysis_node (o : ImageOracle) (s : GraphState) : GraphState :=
  let report_was_updated := s.report_updated
  let all_image_names := s.medical_report.images.map Prod.fst
  let res := all_image_names.foldl (analyzeOneImage o) (s.medical_report, false)
  { s with medical_report := res.1, report_updated := report_was_updated || res.2 }

/-- user_goal router (graph.py:269-271). -/
def user_goal (s : GraphState) : String :=
  if s.report_updated then "yes" else "no"

/-- The `while len(questions) > 0` loop of `process_question_list_node`
(graph.py:306-339).  `yesNo i` is the verdict of the `i`-th provider call
(`none` = raised, which the `except` swallows so the same question is asked
again); `dirty` is the incoming `report_updated` flag; `got` is
`got_an_answer`.  Returns the final `(questions, question_count)` or `none`
when the loop does not finish within `fuel` iterations. -/
def processQuestionsLoop (yesNo : Nat → Option Bool) (dirty : Bool) :
    Nat → Nat → List String → Nat → Bool → Option (List String × Nat)
  | 0, _, _, _, _ => none
  | fuel+1, idx, questions, qcount, got =>
    if questions.length = 0 then some (questions, qcount)
    else match yesNo idx with
      | none => processQuestionsLoop yesNo dirty fuel (idx+1) questions qcount got
      | some true =>
        processQuestionsLoop yesNo dirty fuel (idx+1) questions.dropLast (qcount+1) true
      | some false =>
        if !got && dirty then some ([], qcount) else some (questions, qcount)

/-- process_question_list_node (graph.py:273-339): reconciles the pending
question queue back-to-front against the evidence.  `none` result = the
in-node retry loop never terminates (only possible when provider calls keep
failing). -/
def process_question_list_node (yesNo : Nat → Option Bool) (fuel : Nat)
    (s : GraphState) : Option GraphState :=
  match s.information_seek with
  | none => some s
  | some questions =>
    if questions.length = 0 then some s
    else
      match processQuestionsLoop yesNo s.report_updated fuel 0 questions
          s.question_count false with
      | none => none
      | some res => some { s with information_seek := some res.1, question_count := res.2 }

/-- pipeline_router (graph.py:341-347). -/
def pipeline_router (s : GraphState) : String :=
  match s.information_seek with
  | some qs => if qs.length > 0 then "interview" else "analysis"
  | none => "analysis"

/-- The `HumanMessage(content="next disease")` request appended to the
scratch buffer before each suggestion call. -/
def humanNext : Msg := ⟨.human, .text "next disease", []⟩

/-- disease_suggestion_node (graph.py:349-419): appends the request message,
and on success also the AI reply carrying the dumped structured response; a
provider failure is caught after the request message was already appended. -/
def disease_suggestion_node (resp : Option DiseaseSuggestionLLMResponse)
    (s : GraphState) : GraphState :=
  let s := { s with report_updated := false }
  match resp with
  | none => { s with disease_buffer := s.disease_buffer ++ [humanNext] }
  | some r =>
    { s with disease_buffer := s.disease_buffer ++ [humanNext, ⟨.ai, .suggJson r, []⟩] }

/-- loop_disease_suggestion router (graph.py:456-467).  `none` models a run
abort: either the Python function falls through and returns `None` (buffer
length ≤ 1), which the graph's route mapping rejects, or
`model_validate_json` raises on a non-suggestion last message. -/
def loop_disease_suggestion (s : GraphState) : Option String :=
  if s.disease_buffer.length > 1 then
    match s.disease_buffer.getLast? with
    | none => none
    | some last =>
      match parseSuggestion last.content with
      | none => none
      | some suggestion =>
        match suggestion.disease with
        | none => some "continue"
        | some d =>
          if d.disease_name = "" ∨ s.disease_buffer.length > 10 ∨ d.match_probability < 65
          then some "continue"
          else some "disease-loop"
  else none

/-- process_diagnosis_node (graph.py:421-441): folds the latest valid
suggestion into the candidate list, clearing the prior list on the first
fold (buffer length exactly 2).  `none` models `model_validate_json`
raising. -/
def process_diagnosis_node (s : GraphState) : Option GraphState :=
  let s := { s with report_updated := false }
  if s.disease_buffer.length > 1 then
    match s.disease_buffer.getLast? with
    | none => none
    | some last =>
      match parseSuggestion last.content with
      | none => none
      | some suggestion =>
        match suggestion.disease with
        | some d =>
          if d.disease_name ≠ "" then
            let prior :=
              if s.disease_buffer.length = 2 then []
              else s.medical_report.most_likely_disease
            some { s with medical_report := { s.medical_report with
              most_likely_disease := prior ++ [d] } }
          else some s
        | none => some s
  else some s

/-- Order relation of the Sort stage: `a` before `b` when `a`'s probability
is at least `b`'s (descending). -/
def probGE (a b : Disease) : Prop :=
  b.match_probability ≤ a.match_probability

instance : DecidableRel probGE := fun _ _ => Nat.decLe _ _

instance : IsTotal Disease probGE :=
  ⟨fun a b => Nat.le_total b.match_probability a.match_probability⟩

instance : IsTrans Disease probGE :=
  ⟨fun _ _ _ hab hbc => le_trans hbc hab⟩

/-- sort_disease_node (graph.py:443-454).  Python's
`sorted(key=lambda x: x.match_probability, reverse=True)` is the stable
non-increasing reordering by probability, which is what
`List.insertionSort probGE` computes. -/
def sort_disease_node (s : GraphState) : GraphState :=
  let disease := s.medical_report.most_likely_disease
  let s := { s with disease_buffer := [] }
  if disease.length > 0 then
    { s with medical_report := { s.medical_report with
      most_likely_disease := disease.insertionSort probGE } }
  else s

/-- information_seek_node (graph.py:469-536).  `resp` is the provider's
`InformationSeek.questions` list (`none` = the call raised). -/
def information_seek_node (resp : Option (List String)) (s : GraphState) : GraphState :=
  let s := { s with report_updated := false }
  if s.question_count > 20 then { s with information_seek := none }
  else
    match resp with
    | none => { s with information_seek := none }
    | some questions =>
      if questions.length = 0 then { s with information_seek := none }
      else { s with information_seek := some (questions.take 5) }

/-- Structured response of the reply-composition call (models.py
`InterviewResponse`). -/
structure InterviewResponse where
  message : String
  suggested_actions : List String
deriving DecidableEq, Repr

/-- The fixed apologetic fallback turn appended when the reply call fails. -/
def fallbackReply : Msg :=
  ⟨.ai, .text "I have encountered an error! Please try again later.", []⟩

/-- propose_message_node (graph.py:538-635): consumes a still-pending user
turn, then appends the composed assistant reply (with `suggested_actions`
in `additional_kwargs`) or, on provider failure, the fixed fallback turn. -/
def propose_message_node (resp : Option InterviewResponse) (s : GraphState) : GraphState :=
  let s := { s with report_updated := false }
  let s :=
    match s.new_user_message with
    | some m => { s with messages := s.messages ++ [m], new_user_message := none }
    | none => s
  match resp with
  | none => { s with messages := s.messages ++ [fallbackReply] }
  | some r =>
    if r.message ≠ "" then
      { s with messages := s.messages ++
        [⟨.ai, .text r.message, [("suggested_actions", r.suggested_actions)]⟩] }
    else s

/-- All provider oracles of one pipeline run. -/
structure Oracle where
  preReport : Option PreReportUpdateLLMResponse
  pathExists : String → Bool
  image : ImageOracle
  yesNo : Nat → Option Bool
  suggest : Nat → Option DiseaseSuggestionLLMResponse
  infoSeek : Option (List String)
  interview : Option InterviewResponse

/-- The diagnosis loop as wired in `build_graph` (graph.py:677-685):
suggestion, then the `loop_disease_suggestion` router, then either
processing and looping back, or exiting towards Sort.  Returns the number
of suggestion round-trips together with the state handed to Sort; `none`
models a run abort (router error / parse exception / fuel exhaustion). -/
def runDiagLoop (suggest : Nat → Option DiseaseSuggestionLLMResponse) :
    Nat → Nat → GraphState → Option (Nat × GraphState)
  | 0, _, _ => none
  | fuel+1, k, s =>
    let s1 := disease_suggestion_node (suggest k) s
    match loop_disease_suggestion s1 with
    | none => none
    | some route =>
      if route = "disease-loop" then
        match process_diagnosis_node s1 with
        | none => none
        | some s2 => runDiagLoop suggest fuel (k+1) s2
      else some (k+1, s1)

/-- One full pipeline run as wired in `build_graph` (graph.py:640-691):
entry at Evidence Extraction, then Image Analysis, then the `user_goal`
branch, Question Reconciliation with the `pipeline_router` branch, the
diagnosis loop, Sort, Information-Seek, and the terminal Interview Reply.
`none` models a run that aborts or diverges instead of reaching the
terminal stage. -/
def runPipeline (o : Oracle) (fuel : Nat) (s : GraphState) : Option GraphState :=
  let s1 := pre_report_update_node o.preReport o.pathExists s
  let s2 := image_analysis_node o.image s1
  if user_goal s2 = "no" then some (propose_message_node o.interview s2)
  else
    match process_question_list_node o.yesNo fuel s2 with
    | none => none
    | some s3 =>
      if pipeline_router s3 = "interview" then some (propose_message_node o.interview s3)
      else
        match runDiagLoop o.suggest fuel 0 s3 with
        | none => none
        | some res =>
          let s5 := sort_disease_node res.2
          let s6 := information_seek_node o.infoSeek s5
          some (propose_message_node o.interview s6)

/-! Session persistence (session_manager.py).  The serialized form is a
JSON document; string payloads are `MsgContent` so that the scratch-buffer
suggestion dumps stay recoverable (see `MsgContent`). -/

/-- JSON values, as produced by `SessionManager._serialize_state` and
consumed by `_deserialize_state`. -/
inductive Json where
  | null
  | jbool (b : Bool)
  | jnum (n : Nat)
  | jstr (c : MsgContent)
  | jarr (elems : List Json)
  | jobj (fields : List (String × Json))

/-- Dict field access, `data.get(k)`. -/
def Json.getField : Json → String → Option Json
  | .jobj fields, k => (fields.find? (fun p => p.1 == k)).map Prod.snd
  | _, _ => none

/-- The `"type"` tag written by `_serialize_message`. -/
def typeTag : MsgType → String
  | .human => "human"
  | .ai => "ai"
  | .system => "system"

/-- Serialization of `additional_kwargs` (a dict of string-list values, as
used for `suggested_actions`), stored verbatim by `_serialize_message`. -/
def kwargsToJson (kw : List (String × List String)) : Json :=
  .jobj (kw.map (fun p => (p.1, .jarr (p.2.map (fun a => .jstr (.text a))))))

/-- SessionManager._serialize_message (session_manager.py:19-36) restricted
to the reachable message kinds (the raw-string and unknown-object fallbacks
are never produced by the pipeline). -/
def serialize_message (m : Msg) : Json :=
  .jobj [("type", .jstr (.text (typeTag m.type))), ("content", .jstr m.content),
         ("kwargs", kwargsToJson m.kwargs)]

/-- Decoding of one `additional_kwargs` entry back into the typed
representation; exact on every value `kwargsToJson` produces. -/
def jsonToKwargEntry : (String × Json) → String × List String
  | (k, .jarr elems) =>
    (k, elems.filterMap (fun j => match j with | .jstr (.text s) => some s | _ => none))
  | (k, _) => (k, [])

/-- Decoding of an `additional_kwargs` dict. -/
def jsonToKwargs : Json → List (String × List String)
  | .jobj fields => fields.map jsonToKwargEntry
  | _ => []

/-- Reading `data.get("content", "")`. -/
def contentOfJson : Option Json → MsgContent
  | some (.jstr c) => c
  | _ => .text ""

/-- SessionManager._deserialize_message (session_manager.py:38-49): the tag
picks the message class, anything unrecognized falls back to a human
message. -/
def deserialize_message (j : Json) : Msg :=
  let content := contentOfJson (j.getField "content")
  let kwargs :=
    match j.getField "kwargs" with
    | some k => jsonToKwargs k
    | none => []
  match j.getField "type" with
  | some (.jstr (.text "human")) => ⟨.human, content, kwargs⟩
  | some (.jstr (.text "ai")) => ⟨.ai, content, kwargs⟩
  | some (.jstr (.text "system")) => ⟨.system, content, kwargs⟩
  | _ => ⟨.human, content, kwargs⟩

/-- A report map serialized verbatim as a JSON object. -/
def dictToJson (d : Dict) : Json :=
  .jobj (d.map (fun p => (p.1, .jstr (.text p.2))))

/-- Decoding of a report map; exact on every value `dictToJson` produces. -/
def jsonToDict : Json → Dict
  | .jobj fields =>
    fields.map (fun p => (p.1, match p.2 with | .jstr (.text s) => s | _ => ""))
  | _ => []

/-- Reading `report_data.get(k, {})` as a report map. -/
def dictFieldOfJson (j : Json) (k : String) : Dict :=
  match j.getField k with
  | some v => jsonToDict v
  | none => []

/-- Disease.model_dump as a JSON object. -/
def diseaseToJson (d : Disease) : Json :=
  .jobj [("disease_name", .jstr (.text d.disease_name)),
         ("match_reason", .jstr (.text d.match_reason)),
         ("match_probability", .jnum d.match_probability)]

/-- Reading a plain-text string field. -/
def strOfJson : Option Json → String
  | some (.jstr (.text s)) => s
  | _ => ""

/-- Disease(**d): reconstruction of a disease from its dumped fields. -/
def jsonToDisease (j : Json) : Disease :=
  ⟨strOfJson (j.getField "disease_name"), strOfJson (j.getField "match_reason"),
   match j.getField "match_probability" with | some (.jnum n) => n | _ => 0⟩

/-- SessionManager._serialize_state (session_manager.py:51-85) for states
holding a report (the pipeline never stores a report-less state): every
collection is written as a container (possibly empty), the absent question
set as `null`, and `new_user_message` is not persisted at all. -/
def serialize_state (s : GraphState) : Json :=
  .jobj [
    ("messages", .jarr (s.messages.map serialize_message)),
    ("disease_buffer", .jarr (s.disease_buffer.map serialize_message)),
    ("medical_report", .jobj [
      ("evidences", dictToJson s.medical_report.evidences),
      ("images", dictToJson s.medical_report.images),
      ("images_analyses", dictToJson s.medical_report.images_analyses),
      ("summary", .jstr (.text s.medical_report.summary)),
      ("most_likely_disease", .jarr (s.medical_report.most_likely_disease.map diseaseToJson)),
      ("medai_raw", dictToJson s.medical_report.medai_raw)]),
    ("information_seek",
      match s.information_seek with
      | none => .null
      | some qs => .jobj [("questions", .jarr (qs.map (fun q => .jstr (.text q))))]),
    ("report_updated", .jbool s.report_updated),
    ("question_count", .jnum s.question_count)]

/-- Reading a message list field, `[self._deserialize_message(m) for m in ...]`. -/
def jsonToMessages : Option Json → List Msg
  | some (.jarr elems) => elems.map deserialize_message
  | _ => []

/-- Reading the `questions` list of a dumped `InformationSeek`. -/
def jsonToQuestions : Option Json → List String
  | some (.jarr elems) =>
    elems.map (fun j => match j with | .jstr (.text s) => s | _ => "")
  | _ => []

/-- SessionManager._deserialize_state (session_manager.py:87-127),
including its defaulting behaviour (`data.get(..., default)`), the
truthiness test on the stored `information_seek` dict (a `None` or empty
dict restores an absent question set), and the forced
`new_user_message = None`. -/
def deserialize_state (j : Json) : GraphState :=
  let report_data :=
    match j.getField "medical_report" with
    | some r => r
    | none => .jobj []
  let diseases :=
    match report_data.getField "most_likely_disease" with
    | some (.jarr elems) => elems.map jsonToDisease
    | _ => []
  { messages := jsonToMessages (j.getField "messages"),
    new_user_message := none,
    medical_report := {
      evidences := dictFieldOfJson report_data "evidences",
      images := dictFieldOfJson report_data "images",
      images_analyses := dictFieldOfJson report_data "images_analyses",
      summary := strOfJson (report_data.getField "summary"),
      most_likely_disease := diseases,
      medai_raw := dictFieldOfJson report_data "medai_raw" },
    disease_buffer := jsonToMessages (j.getField "disease_buffer"),
    information_seek :=
      match j.getField "information_seek" with
      | some (.jobj fields) =>
        if fields.length = 0 then none
        else some (jsonToQuestions ((Json.jobj fields).getField "questions"))
      | _ => none,
    report_updated :=
      match j.getField "report_updated" with
      | some (.jbool b) => b
      | _ => false,
    question_count :=
      match j.getField "question_count" with
      | some (.jnum n) => n
      | _ => 0 }

/-! Statement helpers and concrete sample values used by the theorems. -/

/-- Number of consecutive `yes` verdicts of the reconciliation oracle,
starting at call index `i`, over at most `n` calls: the number of questions
answered (and popped) before the first `no`. -/
def ansCount (judge : Nat → Bool) : Nat → Nat → Nat
  | _, 0 => 0
  | i, n + 1 => if judge i then 1 + ansCount judge (i + 1) n else 0

/-- Invariant of the candidate diagnosis list: every entry has a non-empty
name and probability at least 65. -/
def DiagInv (l : List Disease) : Prop :=
  ∀ d ∈ l, d.disease_name ≠ "" ∧ 65 ≤ d.match_probability

/-- Invariant relating the two image maps of a report: the same titles are
registered in `images` and in `images_analyses`. -/
def ImageKeysAligned (r : MedicalReport) : Prop :=
  ∀ k, dictHas r.images k = dictHas r.images_analyses k

/-- Keys of a report map are pairwise distinct, as for a Python dict. -/
def NodupKeys (d : Dict) : Prop :=
  (d.map Prod.fst).Nodup

/-- Membership form of `ImageKeysAligned`, used inside the invariant
proofs. -/
def AlignedKeys (r : MedicalReport) : Prop :=
  ∀ k, k ∈ r.images.map Prod.fst ↔ k ∈ r.images_analyses.map Prod.fst

/-- Oracle on which every provider call fails. -/
def allFailOracle : Oracle where
  preReport := none
  pathExists := fun _ => false
  image := ⟨fun _ => none, fun _ => none, fun _ => none⟩
  yesNo := fun _ => none
  suggest := fun _ => none
  infoSeek := none
  interview := none

/-- A sample user turn. -/
def sampleUserMsg : Msg := ⟨.human, .text "I have a fever", []⟩

/-- A sample report with one image, one evidence item and one candidate. -/
def sampleReport : MedicalReport where
  evidences := [("Fever", "Present; 3 days")]
  images := [("Photo of forearm", "uploads/a.png")]
  images_analyses := [("Photo of forearm", "a rash")]
  medai_raw := [("Photo of forearm", "eczema 0.4")]
  summary := "patient reports fever"
  most_likely_disease := [⟨"Influenza", "fever and cough", 80⟩]

/-- A sample persisted state: mixed-role history, populated report, a
suggestion round-trip in the scratch buffer, and an absent question set. -/
def sampleState : GraphState where
  messages := [⟨.human, .text "I have a fever", []⟩,
    ⟨.ai, .text "Since when?", [("suggested_actions", ["Today", "Longer"])]⟩,
    ⟨.system, .text "note", []⟩]
  new_user_message := none
  information_seek := none
  medical_report := sampleReport
  disease_buffer := [humanNext, ⟨.ai, .suggJson ⟨0, some ⟨"Influenza", "fever", 80⟩⟩, []⟩]
  report_updated := false
  question_count := 3

/-- A state whose fatigue counter is exactly 20. -/
def q20State : GraphState := { emptyState with question_count := 20 }

/-- A state whose fatigue counter is 21, strictly past the hard stop. -/
def q21State : GraphState := { emptyState with question_count := 21 }

/-- A state already holding the image reference `"p.png"` under the title
`"old"`. -/
def dupImageState : GraphState :=
  { emptyState with medical_report := { emptyState.medical_report with
      images := [("old", "p.png")], images_analyses := [("old", "done")] } }

/-- An extraction response re-mentioning the stored path `"p.png"` under a
new title. -/
def dupImageResp : PreReportUpdateLLMResponse := ⟨none, some [⟨"new", "p.png"⟩]⟩

/-- A state with three pending questions and fresh evidence (dirty flag
set), as handed to Question Reconciliation. -/
def recon3State : GraphState :=
  { emptyState with information_seek := some ["q1", "q2", "q3"], report_updated := true }

/-- A state carrying a pending user turn, as at the pipeline entry. -/
def entryState : GraphState := { emptyState with new_user_message := some sampleUserMsg }

/-- The result of running the pipeline on `entryState` with every provider
call failing. -/
def allFailOut : GraphState :=
  (runPipeline allFailOracle 1 entryState).getD emptyState

/-! Theorems.  First the shared round-trip lemmas for the session
serializer, then the claims. -/

theorem strList_roundtrip (vs : List String) :
    List.filterMap (fun j => match j with | Json.jstr (.text s) => some s | _ => none)
      (vs.map (fun a => Json.jstr (.text a))) = vs := by
  induction vs with
  | nil => rfl
  | cons v t ih => simpa using ih

theorem kwargs_roundtrip (kw : List (String × List String)) :
    jsonToKwargs (kwargsToJson kw) = kw := by
  induction kw with
  | nil => rfl
  | cons p t ih =>
    obtain ⟨k, vs⟩ := p
    simp only [kwargsToJson, jsonToKwargs, List.map_cons, List.map_map] at ih ⊢
    rw [List.cons_eq_cons]
    constructor
    · simpa [jsonToKwargEntry] using strList_roundtrip vs
    · exact ih

theorem message_roundtrip (m : Msg) :
    deserialize_message (serialize_message m) = m := by
  obtain ⟨t, c, kw⟩ := m
  cases t <;>
    simp [serialize_message, deserialize_message, typeTag, Json.getField,
      contentOfJson, kwargs_roundtrip]

theorem dict_roundtrip (d : Dict) : jsonToDict (dictToJson d) = d := by
  induction d with
  | nil => rfl
  | cons p t ih => simpa [dictToJson, jsonToDict] using ih

theorem disease_roundtrip (d : Disease) : jsonToDisease (diseaseToJson d) = d := by
  obtain ⟨n, r, p⟩ := d
  simp [diseaseToJson, jsonToDisease, Json.getField, strOfJson]

theorem questions_roundtrip (qs : List String) :
    jsonToQuestions (some (Json.jarr (qs.map (fun q => Json.jstr (.text q))))) = qs := by
  induction qs with
  | nil => rfl
  | cons q t ih => simpa [jsonToQuestions] using (by simpa [jsonToQuestions] using ih :
      (t.map (fun q => Json.jstr (.text q))).map
        (fun j => match j with | Json.jstr (.text s) => s | _ => "") = t)

theorem messages_roundtrip (l : List Msg) :
    jsonToMessages (some (Json.jarr (l.map serialize_message))) = l := by
  induction l with
  | nil => rfl
  | cons m t ih =>
    simpa [jsonToMessages, message_roundtrip] using
      (by simpa [jsonToMessages] using ih :
        (t.map serialize_message).map deserialize_message = t)

theorem diseases_roundtrip (l : List Disease) :
    (l.map diseaseToJson).map jsonToDisease = l := by
  induction l with
  | nil => rfl
  | cons d t ih => simp [disease_roundtrip, ih]

theorem state_roundtrip (s : GraphState) (h : s.new_user_message = none) :
    deserialize_state (serialize_state s) = s := by
  obtain ⟨msgs, numsg, iseek, rep, buf, ru, qc⟩ := s
  obtain ⟨ev, im, ia, mr, su, mld⟩ := rep
  subst h
  simp only [serialize_state, deserialize_state, Json.getField]
  simp [dictFieldOfJson, Json.getField, dict_roundtrip, strOfJson,
    messages_roundtrip, diseases_roundtrip, jsonToMessages]
  cases iseek with
  | none => simp [Function.comp_def, message_roundtrip, disease_roundtrip]
  | some qs =>
    simp [questions_roundtrip, Function.comp_def, message_roundtrip, disease_roundtrip]

/-- C2: deserializing the serialized form of a state with no pending user
turn (which is every state the pipeline hands to `save_session`: the
terminal stage always clears `new_user_message`) yields the same state —
including states with an absent question set, empty collections and mixed
human/ai/system history — and every empty collection is serialized as an
empty container bound to its key, never as an absent field. -/
theorem C2_round_trip (s : GraphState) (h : s.new_user_message = none) :
    deserialize_state (serialize_state s) = s ∧
    (s.messages = [] → (serialize_state s).getField "messages" = some (.jarr [])) ∧
    (s.disease_buffer = [] →
      (serialize_state s).getField "disease_buffer" = some (.jarr [])) ∧
    (s.medical_report.evidences = [] →
      ((serialize_state s).getField "medical_report").bind
        (fun r => r.getField "evidences") = some (.jobj [])) ∧
    (s.medical_report.images = [] →
      ((serialize_state s).getField "medical_report").bind
        (fun r => r.getField "images") = some (.jobj [])) ∧
    (s.medical_report.images_analyses = [] →
      ((serialize_state s).getField "medical_report").bind
        (fun r => r.getField "images_analyses") = some (.jobj [])) ∧
    (s.medical_report.medai_raw = [] →
      ((serialize_state s).getField "medical_report").bind
        (fun r => r.getField "medai_raw") = some (.jobj [])) ∧
    (s.medical_report.most_likely_disease = [] →
      ((serialize_state s).getField "medical_report").bind
        (fun r => r.getField "most_likely_disease") = some (.jarr [])) := by
  refine ⟨state_roundtrip s h, ?_, ?_, ?_, ?_, ?_, ?_, ?_⟩ <;>
    intro hc <;> simp [serialize_state, Json.getField, hc, dictToJson]

/-- Witness for C2 at two concrete states: the populated mixed-role sample
state round-trips, and the empty state's collections serialize to empty
containers. -/
theorem C2_round_trip_witness :
    deserialize_state (serialize_state sampleState) = sampleState ∧
    (serialize_state emptyState).getField "messages" = some (.jarr []) ∧
    ((serialize_state emptyState).getField "medical_report").bind
      (fun r => r.getField "evidences") = some (.jobj []) :=
  ⟨(C2_round_trip sampleState rfl).1,
   (C2_round_trip emptyState rfl).2.1 rfl,
   (C2_round_trip emptyState rfl).2.2.2.1 rfl⟩

theorem filter_key_orderedInsert (a : Disease) (l : List Disease) (p : Nat) :
    (List.orderedInsert probGE a l).filter (fun d => d.match_probability == p) =
      (a :: l).filter (fun d => d.match_probability == p) := by
  induction l with
  | nil => rfl
  | cons b t ih =>
    by_cases hab : probGE a b
    · rw [List.orderedInsert_of_le _ _ hab]
    · have hlt : a.match_probability < b.match_probability := by
        simpa [probGE, Nat.not_le] using hab
      simp only [List.orderedInsert, if_neg hab]
      by_cases hqa : a.match_probability = p
      · have hqb : (b.match_probability == p) = false := by
          simp only [beq_eq_false_iff_ne]
          omega
        simp only [List.filter_cons, hqb, cond_false, ih, List.filter_cons]
        simp [hqa]
      · have hqa' : (a.match_probability == p) = false := by
          simpa [beq_eq_false_iff_ne] using hqa
        simp only [List.filter_cons, ih, List.filter_cons, hqa']
        simp

theorem filter_key_insertionSort (l : List Disease) (p : Nat) :
    (l.insertionSort probGE).filter (fun d => d.match_probability == p) =
      l.filter (fun d => d.match_probability == p) := by
  induction l with
  | nil => rfl
  | cons a t ih =>
    calc ((a :: t).insertionSort probGE).filter (fun d => d.match_probability == p)
        = (a :: t.insertionSort probGE).filter (fun d => d.match_probability == p) :=
          filter_key_orderedInsert a _ p
      _ = (a :: t).filter (fun d => d.match_probability == p) := by
          simp only [List.filter_cons, ih]

theorem sort_disease_node_most (s : GraphState) :
    (sort_disease_node s).medical_report.most_likely_disease =
      s.medical_report.most_likely_disease.insertionSort probGE := by
  unfold sort_disease_node
  by_cases h : s.medical_report.most_likely_disease.length > 0
  · simp [h]
  · have hnil : s.medical_report.most_likely_disease = [] :=
      List.length_eq_zero.mp (by omega)
    simp [h, hnil]

theorem sort_disease_node_buffer (s : GraphState) :
    (sort_disease_node s).disease_buffer = [] := by
  unfold sort_disease_node
  by_cases h : s.medical_report.most_likely_disease.length > 0 <;> simp [h]

/-- C6: after the Sort stage the candidate list is ordered non-increasing in
probability, candidates of equal probability keep their relative order (the
filter at each probability value is unchanged, and the result is a
permutation of the input), and the scratch buffer is cleared. -/
theorem C6_sort_stage (s : GraphState) :
    ((sort_disease_node s).medical_report.most_likely_disease).Pairwise
      (fun a b => b.match_probability ≤ a.match_probability) ∧
    (∀ p : Nat, (sort_disease_node s).medical_report.most_likely_disease.filter
        (fun d => d.match_probability == p) =
      s.medical_report.most_likely_disease.filter (fun d => d.match_probability == p)) ∧
    (sort_disease_node s).medical_report.most_likely_disease.Perm
      s.medical_report.most_likely_disease ∧
    (sort_disease_node s).disease_buffer = [] := by
  rw [sort_disease_node_most]
  exact ⟨List.sorted_insertionSort probGE _,
    fun p => filter_key_insertionSort _ p,
    List.perm_insertionSort probGE _,
    sort_disease_node_buffer s⟩

theorem getLast?_append_pair (l : List Msg) (a b : Msg) :
    (l ++ [a, b]).getLast? = some b := by
  rw [show l ++ [a, b] = (l ++ [a]) ++ [b] by simp]
  exact List.getLast?_concat _

theorem suggestion_success_buffer (r : DiseaseSuggestionLLMResponse) (s : GraphState) :
    (disease_suggestion_node (some r) s).disease_buffer =
      s.disease_buffer ++ [humanNext, ⟨.ai, .suggJson r, []⟩] := rfl

theorem loop_router_success_none (r : DiseaseSuggestionLLMResponse) (s : GraphState)
    (hd : r.disease = none) :
    loop_disease_suggestion (disease_suggestion_node (some r) s) = some "continue" := by
  unfold loop_disease_suggestion
  rw [suggestion_success_buffer]
  simp [getLast?_append_pair, parseSuggestion, hd]

theorem loop_router_success_some (r : DiseaseSuggestionLLMResponse) (s : GraphState)
    (d : Disease) (hd : r.disease = some d) :
    loop_disease_suggestion (disease_suggestion_node (some r) s) =
      (if d.disease_name = "" ∨ s.disease_buffer.length + 2 > 10 ∨
          d.match_probability < 65
       then some "continue" else some "disease-loop") := by
  unfold loop_disease_suggestion
  rw [suggestion_success_buffer]
  simp only [List.length_append, List.length_cons, List.length_nil,
    getLast?_append_pair, parseSuggestion, hd]
  rw [if_pos (by omega : s.disease_buffer.length + (0 + 1 + 1) > 1)]

theorem process_diagnosis_success (s : GraphState) (last : Msg)
    (r : DiseaseSuggestionLLMResponse) (d : Disease)
    (hlen : 1 < s.disease_buffer.length)
    (hlast : s.disease_buffer.getLast? = some last)
    (hparse : parseSuggestion last.content = some r)
    (hd : r.disease = some d) (hname : d.disease_name ≠ "") :
    process_diagnosis_node s = some
      { s with
          report_updated := false,
          medical_report := { s.medical_report with most_likely_disease :=
            (if s.disease_buffer.length = 2 then []
             else s.medical_report.most_likely_disease) ++ [d] } } := by
  unfold process_diagnosis_node
  simp only [hlast, hparse, hd, hname]
  rw [if_pos (by simpa using hlen)]
  simp [hname]


theorem process_diagnosis_success_spec (s : GraphState) (last : Msg)
    (r : DiseaseSuggestionLLMResponse) (d : Disease)
    (hlen : 1 < s.disease_buffer.length)
    (hlast : s.disease_buffer.getLast? = some last)
    (hparse : parseSuggestion last.content = some r)
    (hd : r.disease = some d) (hname : d.disease_name ≠ "") :
    ∃ s2, process_diagnosis_node s = some s2 ∧
      s2.medical_report.most_likely_disease =
        (if s.disease_buffer.length = 2 then []
         else s.medical_report.most_likely_disease) ++ [d] ∧
      s2.disease_buffer = s.disease_buffer ∧
      s2.messages = s.messages ∧
      s2.new_user_message = s.new_user_message ∧
      s2.question_count = s.question_count ∧
      s2.information_seek = s.information_seek ∧
      s2.medical_report.images = s.medical_report.images ∧
      s2.medical_report.images_analyses = s.medical_report.images_analyses ∧
      s2.report_updated = false :=
  ⟨_, process_diagnosis_success s last r d hlen hlast hparse hd hname,
    rfl, rfl, rfl, rfl, rfl, rfl, rfl, rfl, rfl⟩

theorem runDiagLoop_step (o : Nat → Option DiseaseSuggestionLLMResponse)
    (fuel k : Nat) (s : GraphState) :
    runDiagLoop o (fuel + 1) k s =
      (match loop_disease_suggestion (disease_suggestion_node (o k) s) with
       | none => none
       | some route =>
         if route = "disease-loop" then
           match process_diagnosis_node (disease_suggestion_node (o k) s) with
           | none => none
           | some s2 => runDiagLoop o fuel (k + 1) s2
         else some (k + 1, disease_suggestion_node (o k) s)) := rfl

theorem runDiagLoop_exit (o : Nat → Option DiseaseSuggestionLLMResponse)
    (fuel k : Nat) (s : GraphState)
    (h : loop_disease_suggestion (disease_suggestion_node (o k) s) = some "continue") :
    runDiagLoop o (fuel + 1) k s = some (k + 1, disease_suggestion_node (o k) s) := by
  rw [runDiagLoop_step, h]
  simp

theorem runDiagLoop_continue (o : Nat → Option DiseaseSuggestionLLMResponse)
    (fuel k : Nat) (s s2 : GraphState)
    (h : loop_disease_suggestion (disease_suggestion_node (o k) s) = some "disease-loop")
    (hp : process_diagnosis_node (disease_suggestion_node (o k) s) = some s2) :
    runDiagLoop o (fuel + 1) k s = runDiagLoop o fuel (k + 1) s2 := by
  rw [runDiagLoop_step, h]
  simp [hp]

theorem diagLoop_total (suggest : Nat → DiseaseSuggestionLLMResponse) :
    ∀ (fuel k : Nat) (s : GraphState),
      12 ≤ s.disease_buffer.length + 2 * (fuel + 1) →
      ∃ n s', runDiagLoop (fun j => some (suggest j)) (fuel + 1) k s = some (n, s') ∧
        n ≤ k + fuel + 1 := by
  intro fuel
  induction fuel with
  | zero =>
    intro k s hlen
    refine ⟨k + 1, disease_suggestion_node (some (suggest k)) s, ?_, Nat.le_refl _⟩
    rcases hd : (suggest k).disease with _ | d
    · exact runDiagLoop_exit _ _ _ _ (loop_router_success_none _ _ hd)
    · refine runDiagLoop_exit _ _ _ _ ?_
      rw [loop_router_success_some _ _ _ hd,
        if_pos (Or.inr (Or.inl (by omega : s.disease_buffer.length + 2 > 10)))]
  | succ f ih =>
    intro k s hlen
    rcases hd : (suggest k).disease with _ | d
    · exact ⟨k + 1, _, runDiagLoop_exit _ _ _ _ (loop_router_success_none _ _ hd), by omega⟩
    · by_cases hc : d.disease_name = "" ∨ s.disease_buffer.length + 2 > 10 ∨
          d.match_probability < 65
      · refine ⟨k + 1, _, runDiagLoop_exit _ _ _ _ ?_, by omega⟩
        rw [loop_router_success_some _ _ _ hd, if_pos hc]
      · push_neg at hc
        obtain ⟨hname, hcap, hprob⟩ := hc
        obtain ⟨S, hS, hmost, hbufS, _, _, _, _, _, _, _⟩ :=
          process_diagnosis_success_spec
            (disease_suggestion_node (some (suggest k)) s)
            ⟨.ai, .suggJson (suggest k), []⟩ (suggest k) d
            (by rw [suggestion_success_buffer]; simp)
            (by rw [suggestion_success_buffer]; exact getLast?_append_pair _ _ _)
            rfl hd hname
        obtain ⟨n, s', hrun, hn⟩ := ih (k + 1) S
          (by rw [hbufS, suggestion_success_buffer]; simp; omega)
        refine ⟨n, s', ?_, by omega⟩
        rw [runDiagLoop_continue _ _ _ _ S ?hr hS]
        · exact hrun
        case hr =>
          rw [loop_router_success_some _ _ _ hd]
          rw [if_neg (by push_neg; exact ⟨hname, by omega, by omega⟩)]

theorem runDiagLoop_mono (o : Nat → Option DiseaseSuggestionLLMResponse) :
    ∀ (f f' k : Nat) (s : GraphState) (r : Nat × GraphState), f ≤ f' →
      runDiagLoop o f k s = some r → runDiagLoop o f' k s = some r := by
  intro f
  induction f with
  | zero =>
    intro f' k s r _ h
    exact absurd h (by simp [runDiagLoop])
  | succ n ih =>
    intro f' k s r hle h
    obtain ⟨m, rfl⟩ : ∃ m, f' = m + 1 := ⟨f' - 1, by omega⟩
    rw [runDiagLoop_step] at h
    rw [runDiagLoop_step]
    rcases hr : loop_disease_suggestion (disease_suggestion_node (o k) s) with _ | route
    · rw [hr] at h; simp at h
    · rw [hr] at h
      simp only at h ⊢
      by_cases hroute : route = "disease-loop"
      · rw [if_pos hroute] at h ⊢
        rcases hp : process_diagnosis_node (disease_suggestion_node (o k) s) with _ | s2
        · rw [hp] at h; simp at h
        · rw [hp] at h
          simp only at h
          exact ih m (k + 1) s2 r (by omega) h
      · rw [if_neg hroute] at h ⊢
        exact h

/-- Characterization of the loop router's continue route, shared by the
loop-bound and candidate-invariant theorems. -/
theorem loop_router_continue_iff (t : GraphState) :
    loop_disease_suggestion t = some "disease-loop" ↔
      (1 < t.disease_buffer.length ∧ t.disease_buffer.length ≤ 10 ∧
       ∃ last r d, t.disease_buffer.getLast? = some last ∧
         parseSuggestion last.content = some r ∧ r.disease = some d ∧
         d.disease_name ≠ "" ∧ 65 ≤ d.match_probability) := by
  constructor
  · intro hroute
    unfold loop_disease_suggestion at hroute
    split at hroute
    case isTrue h1 =>
      split at hroute
      case h_1 => simp at hroute
      case h_2 last heq =>
        split at hroute
        case h_1 => simp at hroute
        case h_2 r hp =>
          split at hroute
          case h_1 => simp at hroute
          case h_2 d hd =>
            split at hroute
            case isTrue => simp at hroute
            case isFalse hc =>
              push_neg at hc
              exact ⟨h1, by omega, last, r, d, heq, hp, hd, hc.1, by omega⟩
    case isFalse h1 => simp at hroute
  · rintro ⟨h1, hcap, last, r, d, hlast, hparse, hd, hname, hprob⟩
    unfold loop_disease_suggestion
    rw [if_pos h1, hlast]
    simp only [hparse, hd]
    rw [if_neg (by push_neg; exact ⟨hname, by omega, by omega⟩)]

/-- C1: from the (reachable) empty scratch buffer, for every sequence of
structured provider outputs the diagnosis loop reaches the Sort stage after
at most 10 suggestion round-trips (any fuel of at least 6 suffices, and more
fuel does not change the outcome), and the router continues the loop exactly
when the scratch buffer has length > 1, the latest suggestion parses to a
non-null disease with a non-empty name and probability at least 65, and the
buffer length is within the hard cap of 10. -/
theorem C1_diag_loop_bound (suggest : Nat → DiseaseSuggestionLLMResponse)
    (s : GraphState) (h : s.disease_buffer = []) :
    (∀ fuel, 6 ≤ fuel → ∃ n s',
        runDiagLoop (fun j => some (suggest j)) fuel 0 s = some (n, s') ∧ n ≤ 10) ∧
    (∀ t : GraphState, loop_disease_suggestion t = some "disease-loop" ↔
      (1 < t.disease_buffer.length ∧ t.disease_buffer.length ≤ 10 ∧
       ∃ last r d, t.disease_buffer.getLast? = some last ∧
         parseSuggestion last.content = some r ∧ r.disease = some d ∧
         d.disease_name ≠ "" ∧ 65 ≤ d.match_probability)) := by
  constructor
  · intro fuel hfuel
    obtain ⟨n, s', hrun, hn⟩ := diagLoop_total suggest 5 0 s (by rw [h]; simp)
    exact ⟨n, s', runDiagLoop_mono _ 6 fuel 0 s _ hfuel hrun, by omega⟩
  · exact fun t => loop_router_continue_iff t

/-- Witness for C1: with the provider immediately reporting no further
disease, the loop exits to Sort on the first round-trip. -/
theorem C1_diag_loop_bound_witness :
    ∃ n s', runDiagLoop (fun _ => some (⟨0, none⟩ : DiseaseSuggestionLLMResponse))
      6 0 emptyState = some (n, s') ∧ n ≤ 10 :=
  (C1_diag_loop_bound (fun _ => ⟨0, none⟩) emptyState rfl).1 6 (by decide)


theorem ansCount_le (judge : Nat → Bool) : ∀ (n i : Nat), ansCount judge i n ≤ n := by
  intro n
  induction n with
  | zero => intro i; simp [ansCount]
  | succ m ih =>
    intro i
    unfold ansCount
    by_cases h : judge i
    · have := ih (i + 1)
      simp only [h, if_true]
      omega
    · simp [h]

theorem take_dropLast_eq (l : List String) (n : Nat) (h : n + 1 ≤ l.length) :
    l.dropLast.take n = l.take n := by
  rw [List.dropLast_eq_take, List.take_take]
  congr 1
  omega

theorem ansCount_succ (judge : Nat → Bool) (i L : Nat) :
    ansCount judge i (L + 1) =
      (if judge i = true then 1 + ansCount judge (i + 1) L else 0) := rfl

theorem pqLoop_spec (judge : Nat → Bool) (dirty : Bool) :
    ∀ (fuel : Nat) (qs : List String) (i qc : Nat) (got : Bool),
      qs.length < fuel →
      processQuestionsLoop (fun j => some (judge j)) dirty fuel i qs qc got =
        (if ansCount judge i qs.length = 0 ∧ got = false ∧ dirty = true
         then some ([], qc)
         else some (qs.take (qs.length - ansCount judge i qs.length),
                    qc + ansCount judge i qs.length)) := by
  intro fuel
  induction fuel with
  | zero => intro qs i qc got h; omega
  | succ f ih =>
    intro qs i qc got h
    by_cases hlen : qs.length = 0
    · have hqs : qs = [] := List.length_eq_zero.mp hlen
      subst hqs
      simp [processQuestionsLoop, ansCount]
    · obtain ⟨L, hL⟩ : ∃ L, qs.length = L + 1 := ⟨qs.length - 1, by omega⟩
      unfold processQuestionsLoop
      rw [if_neg hlen]
      by_cases hj : judge i
      · have hk : ansCount judge i qs.length = 1 + ansCount judge (i + 1) L := by
          rw [hL, ansCount_succ, if_pos hj]
        have hk' := ansCount_le judge L (i + 1)
        simp only [hj]
        rw [ih qs.dropLast (i + 1) (qc + 1) true (by rw [List.length_dropLast]; omega)]
        have hdl : qs.dropLast.length = L := by rw [List.length_dropLast]; omega
        rw [hdl, hk, hL]
        rw [if_neg (by rintro ⟨-, hgot, -⟩; exact absurd hgot (by simp))]
        rw [if_neg (by rintro ⟨hc, -, -⟩; omega)]
        rw [take_dropLast_eq qs _ (by omega)]
        have h1 : L + 1 - (1 + ansCount judge (i + 1) L) =
            L - ansCount judge (i + 1) L := by omega
        rw [h1, Nat.add_assoc]
      · have hjf : judge i = false := by simpa using hj
        have hk : ansCount judge i qs.length = 0 := by
          rw [hL, ansCount_succ, if_neg hj]
        simp only [hjf]
        rw [hk]
        rcases got with _ | _ <;> rcases dirty with _ | _ <;>
          simp [List.take_length]

/-- C5: Question Reconciliation is a no-op on an absent or empty queue;
otherwise it pops questions from the back of the queue while the oracle
judges them answered, incrementing the fatigue counter once per answered
question, stops at the first unanswered one, and in the stopping case
discards the whole queue exactly when nothing was answered in this pass and
the incoming dirty flag was set. -/
theorem C5_reconciliation (judge : Nat → Bool) (fuel : Nat) (s : GraphState) :
    (s.information_seek = none →
      process_question_list_node (fun j => some (judge j)) fuel s = some s) ∧
    (s.information_seek = some [] →
      process_question_list_node (fun j => some (judge j)) fuel s = some s) ∧
    (∀ qs, s.information_seek = some qs →
      process_question_list_node (fun j => some (judge j)) (qs.length + 1) s =
        (if ansCount judge 0 qs.length = 0 ∧ s.report_updated = true
         then some { s with information_seek := some [] }
         else some { s with
             information_seek := some (qs.take (qs.length - ansCount judge 0 qs.length)),
             question_count := s.question_count + ansCount judge 0 qs.length })) := by
  refine ⟨?_, ?_, ?_⟩
  · intro hnone
    unfold process_question_list_node
    rw [hnone]
  · intro hemp
    unfold process_question_list_node
    rw [hemp]
    simp
  · intro qs hq
    unfold process_question_list_node
    rw [hq]
    simp only
    by_cases hlen : qs.length = 0
    · have hqs : qs = [] := List.length_eq_zero.mp hlen
      subst hqs
      rw [if_pos (show (([] : List String)).length = 0 from rfl)]
      split <;> (cases s; simp_all [ansCount])
    · rw [if_neg hlen]
      have hspec := pqLoop_spec judge s.report_updated (qs.length + 1) qs 0
        s.question_count false (by omega)
      by_cases hc : ansCount judge 0 qs.length = 0 ∧ s.report_updated = true
      · rw [if_pos ⟨hc.1, rfl, hc.2⟩] at hspec
        rw [hspec, if_pos hc]
      · rw [if_neg (fun hx => hc ⟨hx.1, hx.2.2⟩)] at hspec
        rw [hspec, if_neg hc]

/-- Witness for C5: three pending questions, the first two (from the back)
judged answered, fresh evidence present: the queue shrinks to its first
entry and the fatigue counter advances by 2. -/
theorem C5_reconciliation_witness :
    process_question_list_node (fun j => some (decide (j < 2))) 4 recon3State =
      some { recon3State with
               information_seek := some ["q1"],
               question_count := recon3State.question_count + 2 } := by
  have h := (C5_reconciliation (fun j => decide (j < 2)) 4 recon3State).2.2
    ["q1", "q2", "q3"] rfl
  simpa [ansCount] using h

theorem foldl_pres {σ α β : Type} (f : σ → α → σ) (g : σ → β)
    (hf : ∀ s a, g (f s a) = g s) : ∀ (l : List α) (s : σ), g (l.foldl f s) = g s := by
  intro l
  induction l with
  | nil => intro s; rfl
  | cons a t ih => intro s; rw [List.foldl_cons, ih (f s a), hf]

theorem rewriteStep_most (o : ImageOracle) (r : MedicalReport) (u : Bool) (n : String) :
    (rewriteStep o r u n).1.most_likely_disease = r.most_likely_disease := by
  unfold rewriteStep
  split
  · split <;> rfl
  · rfl

theorem rewriteStep_images (o : ImageOracle) (r : MedicalReport) (u : Bool) (n : String) :
    (rewriteStep o r u n).1.images = r.images := by
  unfold rewriteStep
  split
  · split <;> rfl
  · rfl

theorem analyzeOneImage_most (o : ImageOracle) (acc : MedicalReport × Bool) (n : String) :
    (analyzeOneImage o acc n).1.most_likely_disease = acc.1.most_likely_disease := by
  unfold analyzeOneImage rewriteStep
  dsimp only
  repeat' split
  all_goals rfl

theorem image_analysis_most (o : ImageOracle) (s : GraphState) :
    (image_analysis_node o s).medical_report.most_likely_disease =
      s.medical_report.most_likely_disease := by
  unfold image_analysis_node
  exact foldl_pres (analyzeOneImage o) (fun acc => acc.1.most_likely_disease)
    (fun acc n => analyzeOneImage_most o acc n) _ _

theorem image_analysis_frame (o : ImageOracle) (s : GraphState) :
    (image_analysis_node o s).messages = s.messages ∧
    (image_analysis_node o s).new_user_message = s.new_user_message ∧
    (image_analysis_node o s).question_count = s.question_count ∧
    (image_analysis_node o s).information_seek = s.information_seek ∧
    (image_analysis_node o s).disease_buffer = s.disease_buffer :=
  ⟨rfl, rfl, rfl, rfl, rfl⟩

theorem applyImage_frame (pe : String → Bool) (s : GraphState) (im : ImageUpdateLLMResponse) :
    (applyImage pe s im).messages = s.messages ∧
    (applyImage pe s im).new_user_message = s.new_user_message ∧
    (applyImage pe s im).question_count = s.question_count ∧
    (applyImage pe s im).information_seek = s.information_seek ∧
    (applyImage pe s im).disease_buffer = s.disease_buffer ∧
    (applyImage pe s im).medical_report.most_likely_disease =
      s.medical_report.most_likely_disease := by
  unfold applyImage
  split <;> exact ⟨rfl, rfl, rfl, rfl, rfl, rfl⟩

theorem foldl_applyImage_frame (pe : String → Bool) (ims : List ImageUpdateLLMResponse) :
    ∀ s : GraphState,
      ((ims.foldl (applyImage pe) s).messages = s.messages ∧
      (ims.foldl (applyImage pe) s).new_user_message = s.new_user_message ∧
      (ims.foldl (applyImage pe) s).question_count = s.question_count ∧
      (ims.foldl (applyImage pe) s).information_seek = s.information_seek ∧
      (ims.foldl (applyImage pe) s).disease_buffer = s.disease_buffer ∧
      (ims.foldl (applyImage pe) s).medical_report.most_likely_disease =
        s.medical_report.most_likely_disease) := by
  induction ims with
  | nil => intro s; exact ⟨rfl, rfl, rfl, rfl, rfl, rfl⟩
  | cons im t ih =>
    intro s
    obtain ⟨a1, a2, a3, a4, a5, a6⟩ := applyImage_frame pe s im
    obtain ⟨b1, b2, b3, b4, b5, b6⟩ := ih (applyImage pe s im)
    simp only [List.foldl_cons]
    exact ⟨b1.trans a1, b2.trans a2, b3.trans a3, b4.trans a4, b5.trans a5, b6.trans a6⟩

theorem foldl_applyEvidence_frame (evs : List EvidenceUpdateLLMResponse) :
    ∀ s : GraphState,
      ((evs.foldl applyEvidence s).messages = s.messages ∧
      (evs.foldl applyEvidence s).new_user_message = s.new_user_message ∧
      (evs.foldl applyEvidence s).question_count = s.question_count ∧
      (evs.foldl applyEvidence s).information_seek = s.information_seek ∧
      (evs.foldl applyEvidence s).disease_buffer = s.disease_buffer ∧
      (evs.foldl applyEvidence s).medical_report.most_likely_disease =
        s.medical_report.most_likely_disease) := by
  induction evs with
  | nil => intro s; exact ⟨rfl, rfl, rfl, rfl, rfl, rfl⟩
  | cons ev t ih =>
    intro s
    obtain ⟨b1, b2, b3, b4, b5, b6⟩ := ih (applyEvidence s ev)
    exact ⟨b1, b2, b3, b4, b5, b6⟩

theorem pre_report_fail_eq (pe : String → Bool) (s : GraphState) :
    pre_report_update_node none pe s = { s with report_updated := false } := rfl

theorem pre_report_success_frame (r : PreReportUpdateLLMResponse)
    (pe : String → Bool) (s : GraphState) :
    (pre_report_update_node (some r) pe s).question_count = s.question_count ∧
    (pre_report_update_node (some r) pe s).information_seek = s.information_seek ∧
    (pre_report_update_node (some r) pe s).disease_buffer = s.disease_buffer ∧
    (pre_report_update_node (some r) pe s).medical_report.most_likely_disease =
      s.medical_report.most_likely_disease ∧
    (pre_report_update_node (some r) pe s).messages =
      s.messages ++ s.new_user_message.toList ∧
    (pre_report_update_node (some r) pe s).new_user_message = none := by
  obtain ⟨el, il⟩ := r
  unfold pre_report_update_node
  dsimp only
  cases el with
  | none =>
    cases il with
    | none => exact ⟨rfl, rfl, rfl, rfl, rfl, rfl⟩
    | some ims =>
      obtain ⟨i1, i2, i3, i4, i5, i6⟩ :=
        foldl_applyImage_frame pe ims { s with report_updated := false }
      exact ⟨i3, i4, i5, i6, by rw [i1, i2], rfl⟩
  | some evs =>
    cases il with
    | none =>
      obtain ⟨e1, e2, e3, e4, e5, e6⟩ :=
        foldl_applyEvidence_frame evs { s with report_updated := false }
      exact ⟨e3, e4, e5, e6, by rw [e1, e2], rfl⟩
    | some ims =>
      obtain ⟨e1, e2, e3, e4, e5, e6⟩ :=
        foldl_applyEvidence_frame evs { s with report_updated := false }
      obtain ⟨i1, i2, i3, i4, i5, i6⟩ :=
        foldl_applyImage_frame pe ims
          (evs.foldl applyEvidence { s with report_updated := false })
      exact ⟨i3.trans e3, i4.trans e4, i5.trans e5, i6.trans e6,
        by rw [i1, e1, i2, e2], rfl⟩

theorem disease_suggestion_frame (resp : Option DiseaseSuggestionLLMResponse)
    (s : GraphState) :
    (disease_suggestion_node resp s).messages = s.messages ∧
    (disease_suggestion_node resp s).new_user_message = s.new_user_message ∧
    (disease_suggestion_node resp s).question_count = s.question_count ∧
    (disease_suggestion_node resp s).information_seek = s.information_seek ∧
    (disease_suggestion_node resp s).medical_report = s.medical_report := by
  cases resp <;> exact ⟨rfl, rfl, rfl, rfl, rfl⟩

theorem process_diagnosis_frame (s t : GraphState)
    (h : process_diagnosis_node s = some t) :
    t.messages = s.messages ∧ t.new_user_message = s.new_user_message ∧
    t.question_count = s.question_count ∧ t.information_seek = s.information_seek ∧
    t.disease_buffer = s.disease_buffer ∧
    t.medical_report.images = s.medical_report.images ∧
    t.medical_report.images_analyses = s.medical_report.images_analyses ∧
    t.report_updated = false := by
  unfold process_diagnosis_node at h
  dsimp only at h
  repeat' split at h
  all_goals (cases h <;> exact ⟨rfl, rfl, rfl, rfl, rfl, rfl, rfl, rfl⟩)

theorem sort_disease_frame (s : GraphState) :
    (sort_disease_node s).messages = s.messages ∧
    (sort_disease_node s).new_user_message = s.new_user_message ∧
    (sort_disease_node s).question_count = s.question_count ∧
    (sort_disease_node s).information_seek = s.information_seek ∧
    (sort_disease_node s).medical_report.images = s.medical_report.images ∧
    (sort_disease_node s).medical_report.images_analyses =
      s.medical_report.images_analyses ∧
    (sort_disease_node s).report_updated = s.report_updated := by
  unfold sort_disease_node
  dsimp only
  split <;> exact ⟨rfl, rfl, rfl, rfl, rfl, rfl, rfl⟩

theorem information_seek_frame (resp : Option (List String)) (s : GraphState) :
    (information_seek_node resp s).messages = s.messages ∧
    (information_seek_node resp s).new_user_message = s.new_user_message ∧
    (information_seek_node resp s).question_count = s.question_count ∧
    (information_seek_node resp s).disease_buffer = s.disease_buffer ∧
    (information_seek_node resp s).medical_report = s.medical_report := by
  unfold information_seek_node
  dsimp only
  repeat' split
  all_goals exact ⟨rfl, rfl, rfl, rfl, rfl⟩

theorem propose_message_frame (resp : Option InterviewResponse) (s : GraphState) :
    (propose_message_node resp s).question_count = s.question_count ∧
    (propose_message_node resp s).information_seek = s.information_seek ∧
    (propose_message_node resp s).disease_buffer = s.disease_buffer ∧
    (propose_message_node resp s).medical_report = s.medical_report ∧
    (propose_message_node resp s).new_user_message = none ∧
    ∃ tail : List Msg, (propose_message_node resp s).messages =
      (s.messages ++ s.new_user_message.toList) ++ tail ∧
      ∀ m ∈ tail, m.type = .ai := by
  unfold propose_message_node
  rcases hnum : s.new_user_message with _ | m <;>
    dsimp only <;>
    rcases resp with _ | r <;>
    dsimp only
  · exact ⟨rfl, rfl, rfl, rfl, rfl, [fallbackReply], by simp, by
      intro m hm
      simp at hm
      subst hm
      rfl⟩
  · by_cases hmsg : r.message ≠ ""
    · rw [if_pos hmsg]
      exact ⟨rfl, rfl, rfl, rfl, rfl,
        [⟨.ai, .text r.message, [("suggested_actions", r.suggested_actions)]⟩],
        by simp, by intro m hm; simp at hm; subst hm; rfl⟩
    · rw [if_neg hmsg]
      exact ⟨rfl, rfl, rfl, rfl, rfl, [], by simp, by intro m hm; simp at hm⟩
  · exact ⟨rfl, rfl, rfl, rfl, rfl, [fallbackReply], by simp, by
      intro x hx
      simp at hx
      subst hx
      rfl⟩
  · by_cases hmsg : r.message ≠ ""
    · rw [if_pos hmsg]
      exact ⟨rfl, rfl, rfl, rfl, rfl,
        [⟨.ai, .text r.message, [("suggested_actions", r.suggested_actions)]⟩],
        by simp, by intro x hx; simp at hx; subst hx; rfl⟩
    · rw [if_neg hmsg]
      exact ⟨rfl, rfl, rfl, rfl, rfl, [], by simp, by intro x hx; simp at hx⟩

theorem pqLoop_qcount_mono (yesNo : Nat → Option Bool) (dirty : Bool) :
    ∀ (fuel i : Nat) (qs : List String) (qc : Nat) (got : Bool)
      (res : List String × Nat),
      processQuestionsLoop yesNo dirty fuel i qs qc got = some res → qc ≤ res.2 := by
  intro fuel
  induction fuel with
  | zero => intro i qs qc got res h; exact absurd h (by simp [processQuestionsLoop])
  | succ f ih =>
    intro i qs qc got res h
    unfold processQuestionsLoop at h
    split at h
    · injection h with h; subst h; exact Nat.le_refl _
    · split at h
      · exact ih (i + 1) qs qc got res h
      · exact Nat.le_of_succ_le (Nat.succ_le_of_lt (Nat.lt_of_lt_of_le (Nat.lt_succ_self qc) (ih (i + 1) qs.dropLast (qc + 1) true res h)))
      · split at h <;> (injection h with h; subst h; exact Nat.le_refl _)

theorem process_questions_frame (yesNo : Nat → Option Bool) (fuel : Nat)
    (s t : GraphState) (h : process_question_list_node yesNo fuel s = some t) :
    t.messages = s.messages ∧ t.new_user_message = s.new_user_message ∧
    t.disease_buffer = s.disease_buffer ∧ t.medical_report = s.medical_report ∧
    t.report_updated = s.report_updated ∧ s.question_count ≤ t.question_count := by
  unfold process_question_list_node at h
  split at h
  · injection h with h; subst h
    exact ⟨rfl, rfl, rfl, rfl, rfl, Nat.le_refl _⟩
  · split at h
    · injection h with h; subst h
      exact ⟨rfl, rfl, rfl, rfl, rfl, Nat.le_refl _⟩
    · split at h
      · exact absurd h (by simp)
      · rename_i res hres
        injection h with h
        subst h
        exact ⟨rfl, rfl, rfl, rfl, rfl,
          pqLoop_qcount_mono yesNo s.report_updated fuel 0 _ s.question_count false res hres⟩

theorem runDiagLoop_frame (o : Nat → Option DiseaseSuggestionLLMResponse) :
    ∀ (fuel k : Nat) (s : GraphState) (n : Nat) (t : GraphState),
      runDiagLoop o fuel k s = some (n, t) →
      t.messages = s.messages ∧ t.new_user_message = s.new_user_message ∧
      t.question_count = s.question_count ∧ t.information_seek = s.information_seek ∧
      t.medical_report.images = s.medical_report.images ∧
      t.medical_report.images_analyses = s.medical_report.images_analyses := by
  intro fuel
  induction fuel with
  | zero => intro k s n t h; exact absurd h (by simp [runDiagLoop])
  | succ f ih =>
    intro k s n t h
    rw [runDiagLoop_step] at h
    obtain ⟨d1, d2, d3, d4, d5⟩ := disease_suggestion_frame (o k) s
    rcases hr : loop_disease_suggestion (disease_suggestion_node (o k) s) with _ | route
    · rw [hr] at h; simp at h
    · rw [hr] at h
      simp only at h
      by_cases hroute : route = "disease-loop"
      · rw [if_pos hroute] at h
        rcases hp : process_diagnosis_node (disease_suggestion_node (o k) s) with _ | s2
        · rw [hp] at h; simp at h
        · rw [hp] at h
          simp only at h
          obtain ⟨p1, p2, p3, p4, p5, p6, p7, p8⟩ := process_diagnosis_frame _ s2 hp
          obtain ⟨i1, i2, i3, i4, i5, i6⟩ := ih (k + 1) s2 n t h
          exact ⟨i1.trans (p1.trans d1), i2.trans (p2.trans d2),
            i3.trans (p3.trans d3), i4.trans (p4.trans d4),
            i5.trans (p6.trans (congrArg MedicalReport.images d5)),
            i6.trans (p7.trans (congrArg MedicalReport.images_analyses d5))⟩
      · rw [if_neg hroute] at h
        cases h
        exact ⟨d1, d2, d3, d4, congrArg MedicalReport.images d5,
          congrArg MedicalReport.images_analyses d5⟩

theorem pre_report_qcount (resp : Option PreReportUpdateLLMResponse)
    (pe : String → Bool) (s : GraphState) :
    (pre_report_update_node resp pe s).question_count = s.question_count := by
  cases resp with
  | none => rfl
  | some r => exact (pre_report_success_frame r pe s).1

theorem process_diagnosis_qcount (s t : GraphState)
    (h : process_diagnosis_node s = some t) : t.question_count = s.question_count :=
  (process_diagnosis_frame s t h).2.2.1

theorem runPipeline_qcount_mono (o : Oracle) (fuel : Nat) (s t : GraphState)
    (h : runPipeline o fuel s = some t) : s.question_count ≤ t.question_count := by
  unfold runPipeline at h
  dsimp only at h
  have hq12 : (image_analysis_node o.image
      (pre_report_update_node o.preReport o.pathExists s)).question_count =
      s.question_count :=
    ((image_analysis_frame o.image _).2.2.1).trans
      (pre_report_qcount o.preReport o.pathExists s)
  split at h
  · cases h
    rw [(propose_message_frame o.interview _).1, hq12]
  · rcases hpq : process_question_list_node o.yesNo fuel (image_analysis_node o.image
        (pre_report_update_node o.preReport o.pathExists s)) with _ | s3
    · rw [hpq] at h; simp at h
    · rw [hpq] at h
      simp only at h
      have hq3 : s.question_count ≤ s3.question_count := by
        have := (process_questions_frame o.yesNo fuel _ s3 hpq).2.2.2.2.2
        omega
      split at h
      · cases h
        rw [(propose_message_frame o.interview s3).1]
        omega
      · rcases hloop : runDiagLoop o.suggest fuel 0 s3 with _ | res
        · rw [hloop] at h; simp at h
        · rw [hloop] at h
          simp only at h
          obtain ⟨n, s4⟩ := res
          have hq4 : s4.question_count = s3.question_count :=
            (runDiagLoop_frame o.suggest fuel 0 s3 n s4 hloop).2.2.1
          cases h
          rw [(propose_message_frame o.interview _).1,
            (information_seek_frame o.infoSeek _).2.2.1,
            (sort_disease_frame s4).2.2.1]
          omega

/-- C4 counterexample: with the fatigue counter exactly 20 — which the claim
covers via "counter >= 20" — the Information-Seek stage does not produce an
empty question set: a returned provider question survives, because the code
tests `question_count > 20`, not `>= 20`. -/
theorem C4_counterexample :
    q20State.question_count = 20 ∧
    (information_seek_node (some ["Do you have a fever?"]) q20State).information_seek =
      some ["Do you have a fever?"] :=
  ⟨rfl, rfl⟩

/-- C4 (amended): the fatigue counter never decreases — it is preserved by
every stage except Question Reconciliation, which only increments it, and is
monotone across a whole pipeline run — and Information-Seek forces an absent
question set as soon as the counter strictly exceeds 20 (at exactly 20 the
stage still asks). -/
theorem C4_fatigue_monotone_hard_stop :
    (∀ resp pe s, (pre_report_update_node resp pe s).question_count =
      s.question_count) ∧
    (∀ o s, (image_analysis_node o s).question_count = s.question_count) ∧
    (∀ y fuel s t, process_question_list_node y fuel s = some t →
      s.question_count ≤ t.question_count) ∧
    (∀ resp s, (disease_suggestion_node resp s).question_count = s.question_count) ∧
    (∀ s t, process_diagnosis_node s = some t →
      t.question_count = s.question_count) ∧
    (∀ s, (sort_disease_node s).question_count = s.question_count) ∧
    (∀ resp s, (information_seek_node resp s).question_count = s.question_count) ∧
    (∀ resp s, (propose_message_node resp s).question_count = s.question_count) ∧
    (∀ o fuel s t, runPipeline o fuel s = some t →
      s.question_count ≤ t.question_count) ∧
    (∀ resp s, 20 < s.question_count →
      (information_seek_node resp s).information_seek = none) :=
  ⟨fun resp pe s => pre_report_qcount resp pe s,
   fun o s => (image_analysis_frame o s).2.2.1,
   fun y fuel s t h => (process_questions_frame y fuel s t h).2.2.2.2.2,
   fun resp s => (disease_suggestion_frame resp s).2.2.1,
   fun s t h => process_diagnosis_qcount s t h,
   fun s => (sort_disease_frame s).2.2.1,
   fun resp s => (information_seek_frame resp s).2.2.1,
   fun resp s => (propose_message_frame resp s).1,
   runPipeline_qcount_mono,
   fun resp s hgt => by unfold information_seek_node; rw [if_pos hgt]⟩

/-- Witness for the amended C4 at a concrete state: a counter of 21 forces
an absent question set even though the provider returned a question. -/
theorem C4_fatigue_witness :
    (information_seek_node (some ["q"]) q21State).information_seek = none :=
  C4_fatigue_monotone_hard_stop.2.2.2.2.2.2.2.2.2 (some ["q"]) q21State (by decide)

theorem find?_map_replace (k v : String) :
    ∀ m : Dict, dictHas m k = true →
      (m.map (fun p => if p.1 == k then (k, v) else p)).find? (fun p => p.1 == k) =
        some (k, v) := by
  intro m
  induction m with
  | nil => intro h; simp [dictHas] at h
  | cons q t ih =>
    intro h
    by_cases hq : q.1 == k
    · simp [List.find?, hq]
    · have ht : dictHas t k = true := by
        simp [dictHas] at h ⊢
        rcases h with h | h
        · exact absurd (by simp [h]) hq
        · exact h
      simp only [List.map_cons, List.find?]
      rw [if_neg (by simpa using hq)]
      simp only [hq, if_false] at *
      simpa [List.find?, hq] using ih ht

theorem find?_append_hit (k v : String) :
    ∀ m : Dict, dictHas m k = false →
      (m ++ [(k, v)]).find? (fun p => p.1 == k) = some (k, v) := by
  intro m
  induction m with
  | nil => intro h; simp [List.find?]
  | cons q t ih =>
    intro h
    have hq : (q.1 == k) = false := by
      simp [dictHas] at h
      simpa using h.1
    have ht : dictHas t k = false := by
      simp [dictHas] at h ⊢
      intro a b hab
      exact h.2 a b hab
    simp only [List.cons_append, List.find?, hq]
    exact ih ht

theorem dictGet_set_self (m : Dict) (k v : String) :
    dictGet (dictSet m k v) k = some v := by
  unfold dictGet dictSet
  by_cases h : dictHas m k
  · rw [if_pos h, find?_map_replace k v m h]
    rfl
  · rw [if_neg h, find?_append_hit k v m (by simpa using h)]
    rfl

theorem dictHas_iff (m : Dict) (k : String) :
    dictHas m k = true ↔ k ∈ m.map Prod.fst := by
  simp [dictHas, List.any_eq_true, List.mem_map]

theorem keys_set_pos (m : Dict) (k v : String) (h : dictHas m k = true) :
    (dictSet m k v).map Prod.fst = m.map Prod.fst := by
  unfold dictSet
  rw [if_pos h, List.map_map]
  apply List.map_congr_left
  intro p hp
  by_cases hpk : p.1 = k
  · simp [hpk]
  · simp [hpk]

theorem keys_set_neg (m : Dict) (k v : String) (h : dictHas m k = false) :
    (dictSet m k v).map Prod.fst = m.map Prod.fst ++ [k] := by
  unfold dictSet
  rw [if_neg (by simp [h])]
  simp

theorem mem_keys_set (m : Dict) (k v k' : String) :
    k' ∈ (dictSet m k v).map Prod.fst ↔ (k' ∈ m.map Prod.fst ∨ k' = k) := by
  by_cases h : dictHas m k
  · rw [keys_set_pos m k v h]
    constructor
    · exact Or.inl
    · rintro (hm | rfl)
      · exact hm
      · exact (dictHas_iff m k').mp h
  · rw [keys_set_neg m k v (by simpa using h)]
    simp

theorem mem_keys_del (m : Dict) (k k' : String) :
    k' ∈ (dictDel m k).map Prod.fst ↔ (k' ∈ m.map Prod.fst ∧ k' ≠ k) := by
  unfold dictDel
  simp only [List.mem_map, List.mem_filter, bne_iff_ne, ne_eq]
  constructor
  · rintro ⟨a, ⟨ha, hne⟩, rfl⟩
    exact ⟨⟨a, ha, rfl⟩, hne⟩
  · rintro ⟨⟨a, ha, rfl⟩, hne⟩
    exact ⟨a, ⟨ha, hne⟩, rfl⟩

theorem nodup_keys_set (m : Dict) (k v : String) (h : NodupKeys m) :
    NodupKeys (dictSet m k v) := by
  unfold NodupKeys at *
  by_cases hk : dictHas m k
  · rw [keys_set_pos m k v hk]
    exact h
  · rw [keys_set_neg m k v (by simpa using hk)]
    refine List.Nodup.append h (List.nodup_singleton k) ?_
    intro a ha hak
    simp only [List.mem_singleton] at hak
    subst hak
    exact absurd ((dictHas_iff m a).mpr ha) (by simpa using hk)

theorem nodup_keys_del (m : Dict) (k : String) (h : NodupKeys m) :
    NodupKeys (dictDel m k) := by
  unfold NodupKeys at *
  unfold dictDel
  exact h.sublist ((List.filter_sublist m).map Prod.fst)

/-- C7 counterexample: the reference `"p.png"` is already registered under
the title `"old"`; the extraction response repeats that reference under the
new title `"new"` and the path exists — yet the stage adds it again, so the
images map ends up holding the same reference under two titles. -/
theorem C7_counterexample :
    dictGet dupImageState.medical_report.images "old" = some "p.png" ∧
    dictHas dupImageState.medical_report.images "new" = false ∧
    (pre_report_update_node (some dupImageResp) (fun _ => true)
        dupImageState).medical_report.images =
      [("old", "p.png"), ("new", "p.png")] := by
  refine ⟨rfl, rfl, ?_⟩
  rfl

/-- C7 (amended): Evidence Extraction registers every image of the response
whose path is non-empty and resolves in storage, keyed by title only; it
never compares the reference against the values already stored (that
de-duplication is only requested of the provider in the prompt), so a
repeated reference under a fresh title is registered again. -/
theorem C7_registration_by_title (s : GraphState) (pe : String → Bool)
    (t p : String) (hp : p ≠ "") (hpe : pe p = true) :
    dictGet ((pre_report_update_node (some ⟨none, some [⟨t, p⟩]⟩) pe
      s).medical_report.images) t = some p := by
  unfold pre_report_update_node
  dsimp only [List.foldl]
  unfold applyImage
  rw [if_pos (by simp [hp, hpe])]
  exact dictGet_set_self _ t p

/-- Witness for the amended C7: the already-present reference is re-added
under the new title. -/
theorem C7_registration_by_title_witness :
    dictGet ((pre_report_update_node (some ⟨none, some [⟨"new", "p.png"⟩]⟩)
      (fun _ => true) dupImageState).medical_report.images) "new" = some "p.png" :=
  C7_registration_by_title dupImageState (fun _ => true) "new" "p.png"
    (by decide) rfl

theorem analyzeOneImage_fail_flag (o : ImageOracle)
    (h1 : ∀ n, o.imgDesc n = none) (h2 : ∀ r, o.rewriteRaw r = none)
    (acc : MedicalReport × Bool) (n : String) :
    (analyzeOneImage o acc n).2 = acc.2 := by
  unfold analyzeOneImage rewriteStep
  dsimp only
  simp only [h1, h2]
  repeat' split
  all_goals rfl

theorem image_analysis_fail_flag (o : ImageOracle)
    (h1 : ∀ n, o.imgDesc n = none) (h2 : ∀ r, o.rewriteRaw r = none)
    (s : GraphState) (h : s.report_updated = false) :
    (image_analysis_node o s).report_updated = false := by
  unfold image_analysis_node
  dsimp only
  have hfold : (List.foldl (analyzeOneImage o) (s.medical_report, false)
      (s.medical_report.images.map Prod.fst)).2 = false :=
    foldl_pres (analyzeOneImage o) Prod.snd
      (fun acc n => analyzeOneImage_fail_flag o h1 h2 acc n)
      (s.medical_report.images.map Prod.fst) (s.medical_report, false)
  simp [h, hfold]

theorem propose_fail_ru (s : GraphState) :
    (propose_message_node none s).report_updated = false := by
  unfold propose_message_node
  dsimp only
  rcases s.new_user_message <;> rfl

theorem propose_fail_last (s : GraphState) :
    (propose_message_node none s).messages.getLast? = some fallbackReply := by
  unfold propose_message_node
  dsimp only
  rcases s.new_user_message <;> exact List.getLast?_concat _

/-- C3 counterexample: a failing Diagnosis Suggestion provider call is
caught, but the stage is not a no-op — the `"next disease"` request message
was already appended to the scratch buffer before the call raised, so the
state does not pass through unchanged. -/
theorem C3_counterexample :
    (disease_suggestion_node none emptyState).disease_buffer ≠
      emptyState.disease_buffer := by decide

/-- C3 (amended): provider failures are caught inside each stage and the
dirty flag is left false, but a failing stage is not a strict no-op:
Evidence Extraction returns with the user turn unconsumed, Diagnosis
Suggestion keeps the already-appended request message in the scratch buffer,
and Question Reconciliation retries the failing call on the same question
forever, never returning, for any amount of fuel.  Under total provider
failure a run from the entry point still terminates at the Interview Reply
stage with the fixed fallback turn and a clear dirty flag, because the
unset dirty flag routes the pipeline around reconciliation and the
diagnosis loop. -/
theorem C3_failure_handling :
    (∀ pe s, pre_report_update_node none pe s = { s with report_updated := false }) ∧
    (∀ s : GraphState, disease_suggestion_node none s =
      { s with report_updated := false,
               disease_buffer := s.disease_buffer ++ [humanNext] }) ∧
    (∀ (dirty : Bool) (fuel i qc : Nat) (got : Bool) (qs : List String), qs ≠ [] →
      processQuestionsLoop (fun _ => none) dirty fuel i qs qc got = none) ∧
    (∀ (s : GraphState) (fuel : Nat), ∃ s',
      runPipeline allFailOracle fuel s = some s' ∧
      s'.messages.getLast? = some fallbackReply ∧ s'.report_updated = false) := by
  refine ⟨fun pe s => rfl, fun s => rfl, ?_, ?_⟩
  · intro dirty fuel
    induction fuel with
    | zero => intro i qc got qs hqs; rfl
    | succ f ih =>
      intro i qc got qs hqs
      unfold processQuestionsLoop
      rw [if_neg (by simpa [List.length_eq_zero] using hqs)]
      exact ih (i + 1) qc got qs hqs
  · intro s fuel
    have hru2 : (image_analysis_node allFailOracle.image
        (pre_report_update_node allFailOracle.preReport allFailOracle.pathExists
          s)).report_updated = false :=
      image_analysis_fail_flag _ (fun _ => rfl) (fun _ => rfl) _ rfl
    refine ⟨propose_message_node allFailOracle.interview
      (image_analysis_node allFailOracle.image
        (pre_report_update_node allFailOracle.preReport allFailOracle.pathExists s)),
      ?_, propose_fail_last _, propose_fail_ru _⟩
    unfold runPipeline
    dsimp only
    rw [if_pos (show user_goal _ = "no" from by unfold user_goal; rw [hru2]; rfl)]

/-- Witness for the amended C3: with one pending question and every call
failing, reconciliation never returns even with fuel 100; and the
total-failure run on the entry state ends in the fallback reply. -/
theorem C3_failure_handling_witness :
    processQuestionsLoop (fun _ => none) true 100 0 ["q"] 0 false = none ∧
    ∃ s', runPipeline allFailOracle 1 entryState = some s' ∧
      s'.messages.getLast? = some fallbackReply ∧ s'.report_updated = false :=
  ⟨C3_failure_handling.2.2.1 true 100 0 0 false ["q"] (by decide),
   C3_failure_handling.2.2.2 entryState 1⟩

theorem propose_count (resp : Option InterviewResponse) (x : GraphState) (m : Msg)
    (base : List Msg)
    (hinv : x.messages ++ x.new_user_message.toList = base ++ [m])
    (ht : m.type = .human) :
    (propose_message_node resp x).messages.count m = base.count m + 1 ∧
    (propose_message_node resp x).new_user_message = none := by
  obtain ⟨-, -, -, -, hnum, tail, hmsg, hai⟩ := propose_message_frame resp x
  refine ⟨?_, hnum⟩
  rw [hmsg, hinv]
  rw [List.count_append, List.count_append]
  have htail0 : tail.count m = 0 := by
    rw [List.count_eq_zero]
    intro hmem
    have hma := hai m hmem
    rw [ht] at hma
    exact absurd hma (by decide)
  have hm1 : List.count m [m] = 1 := by simp
  omega

/-- C8: in every pipeline run that reaches the terminal Interview Reply
stage, the consumed user turn is appended to the turn list exactly once —
by Evidence Extraction when its provider call succeeds, or by the Interview
Reply fallback append when it did not — and the pending-turn slot is clear
afterwards. -/
theorem C8_user_turn_once (o : Oracle) (fuel : Nat) (s s' : GraphState) (m : Msg)
    (hm : s.new_user_message = some m) (ht : m.type = .human)
    (hrun : runPipeline o fuel s = some s') :
    s'.messages.count m = s.messages.count m + 1 ∧ s'.new_user_message = none := by
  have h0 : (pre_report_update_node o.preReport o.pathExists s).messages ++
      (pre_report_update_node o.preReport o.pathExists s).new_user_message.toList =
      s.messages ++ [m] := by
    cases hresp : o.preReport with
    | none =>
      rw [pre_report_fail_eq]
      simp [hm]
    | some r =>
      obtain ⟨-, -, -, -, h5, h6⟩ := pre_report_success_frame r o.pathExists s
      rw [h5, h6, hm]
      simp
  have h1 : (image_analysis_node o.image (pre_report_update_node o.preReport
      o.pathExists s)).messages ++ (image_analysis_node o.image
      (pre_report_update_node o.preReport o.pathExists s)).new_user_message.toList =
      s.messages ++ [m] := h0
  unfold runPipeline at hrun
  dsimp only at hrun
  split at hrun
  · cases hrun
    exact propose_count o.interview _ m s.messages h1 ht
  · rcases hpq : process_question_list_node o.yesNo fuel (image_analysis_node o.image
        (pre_report_update_node o.preReport o.pathExists s)) with _ | s3
    · rw [hpq] at hrun; simp at hrun
    · rw [hpq] at hrun
      simp only at hrun
      obtain ⟨q1, q2, -, -, -, -⟩ := process_questions_frame o.yesNo fuel _ s3 hpq
      have h3 : s3.messages ++ s3.new_user_message.toList = s.messages ++ [m] := by
        rw [q1, q2]
        exact h1
      split at hrun
      · cases hrun
        exact propose_count o.interview s3 m s.messages h3 ht
      · rcases hloop : runDiagLoop o.suggest fuel 0 s3 with _ | res
        · rw [hloop] at hrun; simp at hrun
        · rw [hloop] at hrun
          simp only at hrun
          obtain ⟨n, s4⟩ := res
          obtain ⟨l1, l2, -, -, -, -⟩ := runDiagLoop_frame o.suggest fuel 0 s3 n s4 hloop
          obtain ⟨o1, o2, -, -, -, -, -⟩ := sort_disease_frame s4
          obtain ⟨f1, f2, -, -, -⟩ := information_seek_frame o.infoSeek (sort_disease_node s4)
          cases hrun
          refine propose_count o.interview _ m s.messages ?_ ht
          rw [f1, f2, o1, o2, l1, l2]
          exact h3

/-- Witness for C8: on the total-failure run the fallback path appends the
pending user turn exactly once. -/
theorem C8_user_turn_once_witness :
    allFailOut.messages.count sampleUserMsg =
      entryState.messages.count sampleUserMsg + 1 ∧
    allFailOut.new_user_message = none :=
  C8_user_turn_once allFailOracle 1 entryState allFailOut sampleUserMsg rfl rfl
    (by decide)

theorem pre_report_most (resp : Option PreReportUpdateLLMResponse)
    (pe : String → Bool) (s : GraphState) :
    (pre_report_update_node resp pe s).medical_report.most_likely_disease =
      s.medical_report.most_likely_disease := by
  cases resp with
  | none => rfl
  | some r => exact (pre_report_success_frame r pe s).2.2.2.1

theorem process_diagnosis_append (t u : GraphState)
    (hroute : loop_disease_suggestion t = some "disease-loop")
    (hp : process_diagnosis_node t = some u) :
    ∃ d, u.medical_report.most_likely_disease =
      (if t.disease_buffer.length = 2 then []
       else t.medical_report.most_likely_disease) ++ [d] ∧
      d.disease_name ≠ "" ∧ 65 ≤ d.match_probability := by
  obtain ⟨h1, hcap, last, r, d, hlast, hparse, hd, hname, hprob⟩ :=
    (loop_router_continue_iff t).mp hroute
  have heq := process_diagnosis_success t last r d h1 hlast hparse hd hname
  rw [hp] at heq
  injection heq with heq
  refine ⟨d, ?_, hname, hprob⟩
  rw [heq]

theorem runDiagLoop_diagInv (o : Nat → Option DiseaseSuggestionLLMResponse) :
    ∀ (fuel k : Nat) (s : GraphState) (n : Nat) (t : GraphState),
      runDiagLoop o fuel k s = some (n, t) →
      DiagInv s.medical_report.most_likely_disease →
      DiagInv t.medical_report.most_likely_disease := by
  intro fuel
  induction fuel with
  | zero => intro k s n t h _; exact absurd h (by simp [runDiagLoop])
  | succ f ih =>
    intro k s n t h hinv
    rw [runDiagLoop_step] at h
    have hmost1 : (disease_suggestion_node (o k) s).medical_report.most_likely_disease
        = s.medical_report.most_likely_disease :=
      congrArg MedicalReport.most_likely_disease
        (disease_suggestion_frame (o k) s).2.2.2.2
    rcases hr : loop_disease_suggestion (disease_suggestion_node (o k) s) with _ | route
    · rw [hr] at h; simp at h
    · rw [hr] at h
      simp only at h
      by_cases hroute : route = "disease-loop"
      · subst hroute
        rw [if_pos rfl] at h
        rcases hp : process_diagnosis_node (disease_suggestion_node (o k) s) with _ | s2
        · rw [hp] at h; simp at h
        · rw [hp] at h
          simp only at h
          obtain ⟨d, hs2, hname, hprob⟩ := process_diagnosis_append _ s2 hr hp
          have hinv2 : DiagInv s2.medical_report.most_likely_disease := by
            rw [hs2]
            intro x hx
            rcases List.mem_append.mp hx with hx | hx
            · by_cases hlen2 :
                  (disease_suggestion_node (o k) s).disease_buffer.length = 2
              · rw [if_pos hlen2] at hx
                simp at hx
              · rw [if_neg hlen2, hmost1] at hx
                exact hinv x hx
            · rw [List.mem_singleton] at hx
              subst hx
              exact ⟨hname, hprob⟩
          exact ih (k + 1) s2 n t h hinv2
      · rw [if_neg hroute] at h
        cases h
        rw [DiagInv, hmost1]
        exact hinv

theorem sort_diagInv (s : GraphState)
    (hinv : DiagInv s.medical_report.most_likely_disease) :
    DiagInv (sort_disease_node s).medical_report.most_likely_disease := by
  rw [DiagInv, sort_disease_node_most]
  intro d hd
  exact hinv d ((List.mem_insertionSort probGE).mp hd)

theorem runPipeline_diagInv (o : Oracle) (fuel : Nat) (s t : GraphState)
    (hrun : runPipeline o fuel s = some t)
    (hinv : DiagInv s.medical_report.most_likely_disease) :
    DiagInv t.medical_report.most_likely_disease := by
  have h1 : (image_analysis_node o.image (pre_report_update_node o.preReport
      o.pathExists s)).medical_report.most_likely_disease =
      s.medical_report.most_likely_disease :=
    (image_analysis_most o.image _).trans (pre_report_most o.preReport o.pathExists s)
  unfold runPipeline at hrun
  dsimp only at hrun
  split at hrun
  · cases hrun
    rw [DiagInv, congrArg MedicalReport.most_likely_disease
      (propose_message_frame o.interview _).2.2.2.1, h1]
    exact hinv
  · rcases hpq : process_question_list_node o.yesNo fuel (image_analysis_node o.image
        (pre_report_update_node o.preReport o.pathExists s)) with _ | s3
    · rw [hpq] at hrun; simp at hrun
    · rw [hpq] at hrun
      simp only at hrun
      have h3 : s3.medical_report.most_likely_disease =
          s.medical_report.most_likely_disease := by
        rw [congrArg MedicalReport.most_likely_disease
          (process_questions_frame o.yesNo fuel _ s3 hpq).2.2.2.1, h1]
      have hinv3 : DiagInv s3.medical_report.most_likely_disease := by
        rw [DiagInv, h3]
        exact hinv
      split at hrun
      · cases hrun
        rw [DiagInv, congrArg MedicalReport.most_likely_disease
          (propose_message_frame o.interview s3).2.2.2.1]
        exact hinv3
      · rcases hloop : runDiagLoop o.suggest fuel 0 s3 with _ | res
        · rw [hloop] at hrun; simp at hrun
        · rw [hloop] at hrun
          simp only at hrun
          obtain ⟨n, s4⟩ := res
          have hinv4 : DiagInv s4.medical_report.most_likely_disease :=
            runDiagLoop_diagInv o.suggest fuel 0 s3 n s4 hloop hinv3
          cases hrun
          rw [DiagInv, congrArg MedicalReport.most_likely_disease
            (propose_message_frame o.interview _).2.2.2.1,
            congrArg MedicalReport.most_likely_disease
            (information_seek_frame o.infoSeek _).2.2.2.2]
          exact sort_diagInv s4 hinv4

/-- C9: the Diagnosis Processing stage, when reached through the loop
router's continue route, appends exactly one candidate and that candidate
has a non-empty name and probability at least 65 (the router checked both);
consequently every pipeline run preserves the invariant that all entries of
the candidate diagnosis list have a non-empty name and probability at least
65 — so the invariant holds in every pipeline-reachable state, the initial
list being empty. -/
theorem C9_candidate_invariant :
    (∀ t u, loop_disease_suggestion t = some "disease-loop" →
      process_diagnosis_node t = some u →
      ∃ d, u.medical_report.most_likely_disease =
        (if t.disease_buffer.length = 2 then []
         else t.medical_report.most_likely_disease) ++ [d] ∧
        d.disease_name ≠ "" ∧ 65 ≤ d.match_probability) ∧
    (∀ o fuel s t, runPipeline o fuel s = some t →
      DiagInv s.medical_report.most_likely_disease →
      DiagInv t.medical_report.most_likely_disease) ∧
    DiagInv emptyState.medical_report.most_likely_disease :=
  ⟨process_diagnosis_append, runPipeline_diagInv, by intro d hd; simp [emptyState] at hd⟩

/-- Witness for C9 on the concrete total-failure run from the entry state. -/
theorem C9_candidate_invariant_witness :
    DiagInv allFailOut.medical_report.most_likely_disease :=
  C9_candidate_invariant.2.1 allFailOracle 1 entryState allFailOut (by decide)
    C9_candidate_invariant.2.2

theorem aligned_iff (r : MedicalReport) : ImageKeysAligned r ↔ AlignedKeys r := by
  unfold ImageKeysAligned AlignedKeys
  constructor
  · intro h k
    rw [← dictHas_iff, ← dictHas_iff, h k]
  · intro h k
    have hk := h k
    rw [← dictHas_iff, ← dictHas_iff] at hk
    rcases hb1 : dictHas r.images k with _ | _ <;>
      rcases hb2 : dictHas r.images_analyses k with _ | _ <;> simp_all

/-- The rewrite step only ever overwrites the analysis already stored under
`image_name`, so its key set gains `n` exactly when the rewrite fires. -/
theorem rewriteStep_analyses_keys (o : ImageOracle) (r : MedicalReport) (u : Bool)
    (n k : String) :
    (k ∈ (rewriteStep o r u n).1.images_analyses.map Prod.fst ↔
      (k ∈ r.images_analyses.map Prod.fst ∨
        (k = n ∧ (dictHas r.medai_raw n && (dictGet r.medai_raw n != some "")) = true ∧
          (o.rewriteRaw ((dictGet r.medai_raw n).getD "")).isSome = true))) := by
  unfold rewriteStep
  split
  case isTrue hc =>
    rcases hr : o.rewriteRaw ((dictGet r.medai_raw n).getD "") with _ | txt
    · simp [hr]
    · dsimp only
      simp only [mem_keys_set]
      simp [hc]
  case isFalse hc =>
    simp only [Bool.not_eq_true] at hc
    simp [hc]

set_option maxHeartbeats 1000000 in
theorem analyzeOneImage_aligned (o : ImageOracle) (acc : MedicalReport × Bool)
    (n : String) (hmem : n ∈ acc.1.images.map Prod.fst)
    (ha : AlignedKeys acc.1) (hn : NodupKeys acc.1.images) :
    AlignedKeys (analyzeOneImage o acc n).1 ∧
    NodupKeys (analyzeOneImage o acc n).1.images ∧
    (∀ x, x ≠ n → x ∈ acc.1.images.map Prod.fst →
      x ∈ (analyzeOneImage o acc n).1.images.map Prod.fst) := by
  refine ⟨?_, ?_, ?_⟩
  case _ =>
    intro k
    have hk := ha k
    unfold analyzeOneImage
    dsimp only
    split
    case isFalse => exact hk
    case isTrue hcond =>
      rcases himg : o.imgDesc n with _ | resp
      · rw [rewriteStep_images, rewriteStep_analyses_keys]
        dsimp only
        simp only [mem_keys_set]
        by_cases hkn : k = n
        · subst hkn
          tauto
        · tauto
      · by_cases hret : (resp.image_title != "" && resp.image_title != n) = true
        · have hnewn : resp.image_title ≠ n := by
            have h2 := hret
            simp only [Bool.and_eq_true, bne_iff_ne, ne_eq] at h2
            exact h2.2
          simp only [hret, reduceIte]
          repeat' split
          all_goals (
            rw [rewriteStep_images, rewriteStep_analyses_keys]
            dsimp only
            simp only [mem_keys_set, mem_keys_del]
            by_cases hknw : k = resp.image_title
            · subst hknw
              tauto
            · by_cases hkn : k = n
              · subst hkn
                tauto
              · tauto)
        · have hret' : (resp.image_title != "" && resp.image_title != n) = false := by
            simpa using hret
          simp only [hret', Bool.false_eq_true, reduceIte]
          repeat' split
          all_goals (
            rw [rewriteStep_images, rewriteStep_analyses_keys]
            dsimp only
            simp only [mem_keys_set, mem_keys_del]
            by_cases hkn : k = n
            · subst hkn
              tauto
            · tauto)
  case _ =>
    unfold analyzeOneImage
    dsimp only
    split
    case isFalse => exact hn
    case isTrue hcond =>
      rcases himg : o.imgDesc n with _ | resp
      · rw [rewriteStep_images]
        exact hn
      · by_cases hret : (resp.image_title != "" && resp.image_title != n) = true
        · simp only [hret, reduceIte]
          repeat' split
          all_goals (
            rw [rewriteStep_images]
            exact nodup_keys_del _ _ (nodup_keys_set _ _ _ hn))
        · have hret' : (resp.image_title != "" && resp.image_title != n) = false := by
            simpa using hret
          simp only [hret', Bool.false_eq_true, reduceIte]
          repeat' split
          all_goals (
            rw [rewriteStep_images]
            exact hn)
  case _ =>
    intro x hxn hx
    unfold analyzeOneImage
    dsimp only
    split
    case isFalse => exact hx
    case isTrue hcond =>
      rcases himg : o.imgDesc n with _ | resp
      · rw [rewriteStep_images]
        exact hx
      · by_cases hret : (resp.image_title != "" && resp.image_title != n) = true
        · simp only [hret, reduceIte]
          repeat' split
          all_goals (
            rw [rewriteStep_images]
            dsimp only
            simp only [mem_keys_set, mem_keys_del]
            tauto)
        · have hret' : (resp.image_title != "" && resp.image_title != n) = false := by
            simpa using hret
          simp only [hret', Bool.false_eq_true, reduceIte]
          repeat' split
          all_goals (
            rw [rewriteStep_images]
            exact hx)

/-- `add_new_image` writes the image and an empty analysis under the same
title, preserving key-set alignment and key distinctness. -/
theorem add_new_image_aligned (r : MedicalReport) (nm p : String)
    (ha : AlignedKeys r) (hn : NodupKeys r.images) :
    AlignedKeys (r.add_new_image nm p) ∧ NodupKeys (r.add_new_image nm p).images := by
  unfold MedicalReport.add_new_image
  refine ⟨fun k => ?_, nodup_keys_set _ _ _ hn⟩
  dsimp only
  simp only [mem_keys_set]
  have hk := ha k
  tauto

/-- The registration loop body of Evidence Extraction (graph.py:119-124)
writes image and empty analysis under the same title. -/
theorem applyImage_aligned (pe : String → Bool) (s : GraphState)
    (im : ImageUpdateLLMResponse) (ha : AlignedKeys s.medical_report)
    (hn : NodupKeys s.medical_report.images) :
    AlignedKeys (applyImage pe s im).medical_report ∧
    NodupKeys (applyImage pe s im).medical_report.images := by
  unfold applyImage
  split
  · refine ⟨fun k => ?_, nodup_keys_set _ _ _ hn⟩
    dsimp only
    simp only [mem_keys_set]
    have hk := ha k
    tauto
  · exact ⟨ha, hn⟩

theorem foldl_applyImage_aligned (pe : String → Bool) :
    ∀ (ims : List ImageUpdateLLMResponse) (s : GraphState),
      AlignedKeys s.medical_report → NodupKeys s.medical_report.images →
      AlignedKeys ((ims.foldl (applyImage pe) s).medical_report) ∧
      NodupKeys ((ims.foldl (applyImage pe) s).medical_report.images)
  | [], _, ha, hn => ⟨ha, hn⟩
  | im :: rest, s, ha, hn => by
    obtain ⟨ha1, hn1⟩ := applyImage_aligned pe s im ha hn
    simpa only [List.foldl_cons] using
      foldl_applyImage_aligned pe rest (applyImage pe s im) ha1 hn1

/-- The evidence loop never touches the image maps. -/
theorem foldl_applyEvidence_maps (evs : List EvidenceUpdateLLMResponse)
    (s : GraphState) :
    (evs.foldl applyEvidence s).medical_report.images = s.medical_report.images ∧
    (evs.foldl applyEvidence s).medical_report.images_analyses =
      s.medical_report.images_analyses := by
  have h := foldl_pres applyEvidence
    (fun st => (st.medical_report.images, st.medical_report.images_analyses))
    (fun st a => rfl) evs s
  exact ⟨congrArg Prod.fst h, congrArg Prod.snd h⟩

/-- Alignment only depends on the two image maps. -/
theorem aligned_transport {r r' : MedicalReport} (h1 : r'.images = r.images)
    (h2 : r'.images_analyses = r.images_analyses) (ha : AlignedKeys r) :
    AlignedKeys r' := by
  unfold AlignedKeys at *
  rw [h1, h2]
  exact ha

theorem pre_report_aligned (resp : Option PreReportUpdateLLMResponse)
    (pe : String → Bool) (s : GraphState) (ha : AlignedKeys s.medical_report)
    (hn : NodupKeys s.medical_report.images) :
    AlignedKeys (pre_report_update_node resp pe s).medical_report ∧
    NodupKeys (pre_report_update_node resp pe s).medical_report.images := by
  cases resp with
  | none => exact ⟨ha, hn⟩
  | some r =>
    obtain ⟨el, il⟩ := r
    unfold pre_report_update_node
    dsimp only
    cases el with
    | none =>
      cases il with
      | none => exact ⟨ha, hn⟩
      | some ims => exact foldl_applyImage_aligned pe ims _ ha hn
    | some evs =>
      obtain ⟨he1, he2⟩ :=
        foldl_applyEvidence_maps evs { s with report_updated := false }
      have ha1 : AlignedKeys
          ((evs.foldl applyEvidence { s with report_updated := false }).medical_report) :=
        aligned_transport he1 he2 ha
      have hn1 : NodupKeys
          ((evs.foldl applyEvidence
            { s with report_updated := false }).medical_report.images) := by
        rw [he1]
        exact hn
      cases il with
      | none => exact ⟨ha1, hn1⟩
      | some ims => exact foldl_applyImage_aligned pe ims _ ha1 hn1

/-- The image-analysis fold preserves alignment and key distinctness, given
that the remaining snapshot names are distinct and all still registered. -/
theorem foldl_analyze_aligned (o : ImageOracle) :
    ∀ (names : List String) (acc : MedicalReport × Bool),
      (∀ x ∈ names, x ∈ acc.1.images.map Prod.fst) → names.Nodup →
      AlignedKeys acc.1 → NodupKeys acc.1.images →
      AlignedKeys (names.foldl (analyzeOneImage o) acc).1 ∧
      NodupKeys (names.foldl (analyzeOneImage o) acc).1.images
  | [], _, _, _, ha, hn => ⟨ha, hn⟩
  | n :: rest, acc, hsub, hnd, ha, hn => by
    have hmem : n ∈ acc.1.images.map Prod.fst := hsub n (List.mem_cons_self n rest)
    obtain ⟨ha1, hn1, hpres⟩ := analyzeOneImage_aligned o acc n hmem ha hn
    obtain ⟨hnotin, hnd1⟩ := List.nodup_cons.mp hnd
    simp only [List.foldl_cons]
    refine foldl_analyze_aligned o rest (analyzeOneImage o acc n) ?_ hnd1 ha1 hn1
    intro x hx
    exact hpres x (fun hxe => hnotin (hxe ▸ hx)) (hsub x (List.mem_cons_of_mem n hx))

theorem image_analysis_aligned (o : ImageOracle) (s : GraphState)
    (ha : AlignedKeys s.medical_report) (hn : NodupKeys s.medical_report.images) :
    AlignedKeys (image_analysis_node o s).medical_report ∧
    NodupKeys (image_analysis_node o s).medical_report.images := by
  unfold image_analysis_node
  dsimp only
  exact foldl_analyze_aligned o (s.medical_report.images.map Prod.fst)
    (s.medical_report, false) (fun x hx => hx) hn ha hn

theorem runPipeline_aligned (o : Oracle) (fuel : Nat) (s t : GraphState)
    (hrun : runPipeline o fuel s = some t)
    (ha : AlignedKeys s.medical_report) (hn : NodupKeys s.medical_report.images) :
    AlignedKeys t.medical_report ∧ NodupKeys t.medical_report.images := by
  obtain ⟨p1, p2⟩ := pre_report_aligned o.preReport o.pathExists s ha hn
  obtain ⟨q1, q2⟩ := image_analysis_aligned o.image _ p1 p2
  unfold runPipeline at hrun
  dsimp only at hrun
  split at hrun
  · cases hrun
    rw [(propose_message_frame o.interview _).2.2.2.1]
    exact ⟨q1, q2⟩
  · rcases hpq : process_question_list_node o.yesNo fuel (image_analysis_node o.image
        (pre_report_update_node o.preReport o.pathExists s)) with _ | s3
    · rw [hpq] at hrun; simp at hrun
    · rw [hpq] at hrun
      simp only at hrun
      have hpf := (process_questions_frame o.yesNo fuel _ s3 hpq).2.2.2.1
      have ha3 : AlignedKeys s3.medical_report := by
        rw [hpf]
        exact q1
      have hn3 : NodupKeys s3.medical_report.images := by
        rw [hpf]
        exact q2
      split at hrun
      · cases hrun
        rw [(propose_message_frame o.interview s3).2.2.2.1]
        exact ⟨ha3, hn3⟩
      · rcases hloop : runDiagLoop o.suggest fuel 0 s3 with _ | res
        · rw [hloop] at hrun; simp at hrun
        · rw [hloop] at hrun
          simp only at hrun
          obtain ⟨n, s4⟩ := res
          obtain ⟨_, _, _, _, d5, d6⟩ := runDiagLoop_frame o.suggest fuel 0 s3 n s4 hloop
          have ha4 : AlignedKeys s4.medical_report := aligned_transport d5 d6 ha3
          have hn4 : NodupKeys s4.medical_report.images := by
            rw [d5]
            exact hn3
          obtain ⟨_, _, _, _, sr5, sr6, _⟩ := sort_disease_frame s4
          have ha5 : AlignedKeys (sort_disease_node s4).medical_report :=
            aligned_transport sr5 sr6 ha4
          have hn5 : NodupKeys (sort_disease_node s4).medical_report.images := by
            rw [sr5]
            exact hn4
          have hif := (information_seek_frame o.infoSeek (sort_disease_node s4)).2.2.2.2
          cases hrun
          rw [(propose_message_frame o.interview _).2.2.2.1, hif]
          exact ⟨ha5, hn5⟩

/-- C10: every operation touching the image maps keeps their key sets equal:
`MedicalReport.add_new_image` and the Evidence-Extraction registration loop
write the image and an empty-string analysis under the same title, Image
Analysis moves both entries together when retitling, every other stage
leaves both maps unchanged; hence on reports whose key lists are
duplicate-free (as Python dict keys are) the key-set equality is preserved
by every full pipeline run, and it holds in the initial empty state. -/
theorem C10_image_keys_aligned :
    (∀ (r : MedicalReport) (nm p : String),
        ImageKeysAligned r → NodupKeys r.images →
        ImageKeysAligned (r.add_new_image nm p) ∧
          NodupKeys (r.add_new_image nm p).images) ∧
    (∀ (pe : String → Bool) (s : GraphState) (im : ImageUpdateLLMResponse),
        ImageKeysAligned s.medical_report → NodupKeys s.medical_report.images →
        ImageKeysAligned (applyImage pe s im).medical_report) ∧
    (∀ (o : ImageOracle) (s : GraphState),
        ImageKeysAligned s.medical_report → NodupKeys s.medical_report.images →
        ImageKeysAligned (image_analysis_node o s).medical_report) ∧
    (∀ (o : Oracle) (fuel : Nat) (s t : GraphState),
        runPipeline o fuel s = some t →
        ImageKeysAligned s.medical_report → NodupKeys s.medical_report.images →
        ImageKeysAligned t.medical_report ∧ NodupKeys t.medical_report.images) ∧
    ImageKeysAligned emptyState.medical_report := by
  refine ⟨?_, ?_, ?_, ?_, fun k => rfl⟩
  · intro r nm p ha hn
    obtain ⟨a, b⟩ := add_new_image_aligned r nm p ((aligned_iff r).mp ha) hn
    exact ⟨(aligned_iff _).mpr a, b⟩
  · intro pe s im ha hn
    exact (aligned_iff _).mpr (applyImage_aligned pe s im ((aligned_iff _).mp ha) hn).1
  · intro o s ha hn
    exact (aligned_iff _).mpr (image_analysis_aligned o s ((aligned_iff _).mp ha) hn).1
  · intro o fuel s t hrun ha hn
    obtain ⟨a, b⟩ := runPipeline_aligned o fuel s t hrun ((aligned_iff _).mp ha) hn
    exact ⟨(aligned_iff _).mpr a, b⟩

/-- C10 witness: registering an image into the empty report keeps the key
sets of the image maps aligned. -/
theorem C10_image_keys_aligned_witness :
    ImageKeysAligned (emptyState.medical_report.add_new_image "knee" "knee.png") ∧
    NodupKeys (emptyState.medical_report.add_new_image "knee" "knee.png").images :=
  C10_image_keys_aligned.1 emptyState.medical_report "knee" "knee.png"
    (fun _ => rfl) List.nodup_nil

end Genial
